import Mathlib

/-!
Verification development for the Citation Scout backend
(src/backend/app/main.py).

The program is embedded shallowly:

* text buffers are lists of Unicode code points (`List Nat`);
* the compiled `re` patterns of the source are embedded as a small
  regular-expression AST (`RE`) together with a fuel-indexed backtracking
  matcher `mrun` that reproduces CPython's leftmost, priority-ordered,
  greedy matching discipline (alternation tries its left branch first,
  `*`/`+`/`?` are greedy, the overall match at a position is the first
  success in backtracking order);
* `re.IGNORECASE` is modelled by closing every character test of a
  pattern under ASCII case flipping (`ciP`), which is what CPython does
  for the ASCII texts these claims are about;
* `\s`, `\w`, `\d` are modelled by the corresponding CPython character
  sets (`\s` with the full Unicode whitespace list used by `str.isspace`,
  `\w` and `\d` restricted to ASCII, which agree with CPython on every
  character appearing in the claims);
* `hashlib.md5` is embedded as a full MD5 implementation on byte lists;
* the docx container parser (the external `python-docx` library) is a
  parameter of the upload model: the embedding quantifies over it.
-/

set_option maxHeartbeats 1000000
set_option maxRecDepth 100000

namespace CScout

/-! ### Character code-point classes -/

def btwB (lo hi n : Nat) : Bool := decide (lo ≤ n ∧ n ≤ hi)

def isDigitC (n : Nat) : Bool := btwB 48 57 n

def isUpperC (n : Nat) : Bool := btwB 65 90 n

def isLowerC (n : Nat) : Bool := btwB 97 122 n

/-- Model of CPython's `\w` (restricted to ASCII). -/
def isWordC (n : Nat) : Bool :=
  decide ((65 ≤ n ∧ n ≤ 90) ∨ (97 ≤ n ∧ n ≤ 122) ∨ (48 ≤ n ∧ n ≤ 57) ∨ n = 95)

/-- Model of CPython's `\s` / `str.isspace`: ASCII whitespace, the C1
separators, and the Unicode space separators. -/
def isSpaceC (n : Nat) : Bool :=
  decide (n = 32 ∨ (9 ≤ n ∧ n ≤ 13) ∨ (28 ≤ n ∧ n ≤ 31) ∨ n = 133 ∨ n = 160 ∨
    n = 5760 ∨ (8192 ≤ n ∧ n ≤ 8202) ∨ n = 8232 ∨ n = 8233 ∨
    n = 8239 ∨ n = 8287 ∨ n = 12288)

/-- ASCII case flip: maps a lower-case ASCII letter to the corresponding
upper-case letter and conversely; every other code point is fixed. -/
def flipCase (n : Nat) : Nat :=
  if isLowerC n then n - 32 else if isUpperC n then n + 32 else n

def cp (c : Char) : Nat := c.toNat

def encode (s : String) : List Nat := s.data.map cp

/-! ### Regular-expression AST and backtracking engine -/

inductive RE where
  | eps : RE
  | cls (p : Nat → Bool) : RE
  | cat (a b : RE) : RE
  | alt (a b : RE) : RE
  | star (a : RE) : RE
  | wordB : RE
  | noWordBefore : RE
  | noWordAfter : RE

def isWordO : Option Nat → Bool
  | none => false
  | some c => isWordC c

/-- The character preceding position `i` of `s` (if any). -/
def prevAt (s : List Nat) (i : Nat) : Option Nat :=
  if i = 0 then none else s.get? (i - 1)

/-- CPython `\b`: the two sides of the position disagree on wordness. -/
def boundaryAt (s : List Nat) (i : Nat) : Bool :=
  isWordO (prevAt s i) != isWordO (s.get? i)

/-- Fuel-indexed CPS backtracking matcher.  `mrun s fuel re i k` tries to
match `re` in `s` starting at position `i` and calls the continuation `k`
on the position after each candidate sub-match, in backtracking priority
order, returning the first success.  Every recursive call decreases the
fuel, so with enough fuel the function computes exactly the priority-first
match of the underlying (unfueled) backtracking semantics. -/
def mrun (s : List Nat) : Nat → RE → Nat → (Nat → Option Nat) → Option Nat
  | 0, _, _, _ => none
  | fuel + 1, re, i, k =>
    match re with
    | .eps => k i
    | .cls p =>
      match s.get? i with
      | some c => if p c then k (i + 1) else none
      | none => none
    | .cat a b => mrun s fuel a i (fun j => mrun s fuel b j k)
    | .alt a b => (mrun s fuel a i k).or (mrun s fuel b i k)
    | .star a => (mrun s fuel a i (fun j => mrun s fuel (.star a) j k)).or (k i)
    | .wordB => if boundaryAt s i then k i else none
    | .noWordBefore => if isWordO (prevAt s i) then none else k i
    | .noWordAfter => if isWordO (s.get? i) then none else k i

/-- Syntactic size of a pattern, used to compute a sufficient fuel. -/
def reSize : RE → Nat
  | .eps | .wordB | .noWordBefore | .noWordAfter => 1
  | .cls _ => 1
  | .cat a b => 1 + reSize a + reSize b
  | .alt a b => 1 + reSize a + reSize b
  | .star a => 1 + reSize a

/-- Fuel that is amply sufficient for matching `re` against `s`: the
backtracking depth is bounded by the pattern size plus one pattern
traversal per consumed character. -/
def bigFuel (re : RE) (s : List Nat) : Nat := (reSize re + 2) * (s.length + 2)

/-- `re.match`-at-position semantics: the end position of the overall
match obtained at start position `i`, if any. -/
def tryMatchAt (re : RE) (s : List Nat) (i : Nat) : Option Nat :=
  mrun s (bigFuel re s) re i (fun j => some j)

/-- The `re.finditer` scan loop: positions are tried left to right; after
a match the scan resumes at its end (one past it for an empty match).
The `gas` argument counts the remaining loop iterations; since every
step advances the position by at least one and the loop stops one past
the end of `s`, `s.length + 1` iterations always suffice. -/
def scanGas (re : RE) (s : List Nat) : Nat → Nat → List (Nat × Nat)
  | 0, _ => []
  | gas + 1, i =>
    if i ≤ s.length then
      match tryMatchAt re s i with
      | some e => (i, e) :: scanGas re s gas (max e (i + 1))
      | none => scanGas re s gas (i + 1)
    else []

def finditer (re : RE) (s : List Nat) : List (Nat × Nat) := scanGas re s (s.length + 1) 0

/-- The substring of `s` between positions `b` (inclusive) and `e`
(exclusive). -/
def slice (s : List Nat) (b e : Nat) : List Nat := (s.drop b).take (e - b)

/-- Python `str.strip()`: remove leading whitespace. -/
def dropLeadWS (s : List Nat) : List Nat := s.dropWhile isSpaceC

/-- Python `str.strip()`: remove trailing whitespace. -/
def dropTrailWS : List Nat → List Nat
  | [] => []
  | c :: rest =>
    match dropTrailWS rest with
    | [] => if isSpaceC c then [] else [c]
    | r => c :: r

def stripWS (s : List Nat) : List Nat := dropTrailWS (dropLeadWS s)

/-! ### Pattern combinators

The source compiles its patterns with `re.IGNORECASE` for every
recognizer except `SHORT_FORM_PATTERN` and `LAW_REVIEW_PATTERN`.  Case
insensitivity is modelled by closing each character test under `ciP`. -/

/-- Close a character test under ASCII case flipping (the effect of
`re.IGNORECASE` on one character position). -/
def ciP (p : Nat → Bool) : Nat → Bool := fun n => p n || p (flipCase n)

/-- Case-insensitive character class. -/
def clsCI (p : Nat → Bool) : RE := .cls (ciP p)

/-- Case-sensitive literal character. -/
def lit (c : Char) : RE := .cls (fun n => decide (n = cp c))

/-- Case-insensitive literal character. -/
def litCI (c : Char) : RE := clsCI (fun n => decide (n = cp c))

/-- Sequencing of a list of patterns. -/
def seqR : List RE → RE
  | [] => .eps
  | r :: rest => .cat r (seqR rest)

/-- A pattern that never matches (used for the empty alternation). -/
def failR : RE := .cls (fun _ => false)

/-- Priority-ordered alternation of a list of patterns. -/
def altR : List RE → RE
  | [] => failR
  | r :: rest => .alt r (altR rest)

/-- Case-sensitive literal string. -/
def strCS (s : String) : RE := seqR (s.data.map lit)

/-- Case-insensitive literal string. -/
def strCI (s : String) : RE := seqR (s.data.map litCI)

/-- Greedy `r?`. -/
def optR (r : RE) : RE := .alt r .eps

/-- Greedy `r+`. -/
def plusR (r : RE) : RE := .cat r (.star r)

/-- `r{n}`: exactly `n` copies. -/
def repN (r : RE) : Nat → RE
  | 0 => .eps
  | n + 1 => .cat r (repN r n)

/-- Greedy `r{0,n}`: up to `n` copies, preferring more. -/
def repUpTo (r : RE) : Nat → RE
  | 0 => .eps
  | n + 1 => .alt (.cat r (repUpTo r n)) .eps

/-- Greedy `r{lo,hi}`. -/
def repRange (r : RE) (lo hi : Nat) : RE := .cat (repN r lo) (repUpTo r (hi - lo))

/-! ### Character classes used by the source patterns -/

/-- Membership in an explicit list of characters. -/
def oneOfP (cs : List Char) : Nat → Bool := fun n => (cs.map cp).contains n

/-- The class `[A-Za-z]`. -/
def alphaP : Nat → Bool := fun n => isUpperC n || isLowerC n

/-- `\s` as a pattern. -/
def wsC : RE := .cls isSpaceC

/-- `\s+`. -/
def wsP : RE := plusR wsC

/-- `\s*`. -/
def wsS : RE := .star wsC

/-- `\d` (case closure is irrelevant for digits but kept for faithfulness
to the compiled case-insensitive patterns). -/
def digCI : RE := clsCI isDigitC

/-- `\d+`. -/
def digsCI : RE := plusR digCI

/-- `[A-Z]` under `re.IGNORECASE` (which makes it match both cases). -/
def upperCI : RE := clsCI isUpperC

/-- `\.?` -/
def dotOpt : RE := optR (litCI '.')

/-- An abbreviated word with optional trailing dot, e.g. `Cal\.?`. -/
def abbrCI (s : String) : RE := .cat (strCI s) dotOpt

/-! ### The compiled patterns of the source (module-level constants)

Each definition transcribes one `re.compile` literal from
src/backend/app/main.py, with `(?:...)` groups flattened into the
combinators above.  The single capturing group of every pattern spans the
whole match (the surrounding `\b` / look-arounds are zero-width), so the
match span itself models `match.group(1)`. -/

/-- The section-marker group `(?:\s+§+\s*|\s+sec\.?\s+|\s+section\s+)`
shared by the statute and regulation patterns. -/
def secMarker : RE :=
  altR [seqR [wsP, plusR (litCI '§'), wsS],
        seqR [wsP, strCI ("sec"), dotOpt, wsP],
        seqR [wsP, strCI ("section"), wsP]]

/-- The trailing class `[A-Za-z0-9\-\.]`. -/
def tailClassP : Nat → Bool := fun n => alphaP n || isDigitC n || oneOfP ['-', '.'] n

/-- `STATUTE_CITATION_PATTERN` (case-insensitive):
`\b(\d+\s+(?:U\.?S\.?C\.?|U\.?S\.?C\.?A\.?)(?:\s+§+\s*|\s+sec\.?\s+|\s+section\s+)\d+[A-Za-z0-9\-\.]*)\b` -/
def STATUTE_CITATION_PATTERN : RE :=
  seqR [.wordB, digsCI, wsP,
        altR [seqR [litCI 'U', dotOpt, litCI 'S', dotOpt, litCI 'C', dotOpt],
              seqR [litCI 'U', dotOpt, litCI 'S', dotOpt, litCI 'C', dotOpt, litCI 'A', dotOpt]],
        secMarker, digsCI, .star (clsCI tailClassP), .wordB]

/-- The party-name class `[A-Za-z0-9.'&\- ]`. -/
def partyClassP : Nat → Bool := fun n => alphaP n || isDigitC n || oneOfP ['.', '\'', '&', '-', ' '] n

/-- The reporter class `[A-Za-z. ]`. -/
def repClassP : Nat → Bool := fun n => alphaP n || oneOfP ['.', ' '] n

/-- `CASE_CITATION_PATTERN` (case-insensitive):
`\b([A-Z][A-Za-z0-9.'&\- ]+\s+(?:v\.?|vs\.?|versus)\s+[A-Z][A-Za-z0-9.'&\- ]+,?\s+\d+\s+[A-Za-z. ]+\s*\d+(?:,\s*\d+)?(?:\s+\([^)]+\d{4}\)))\b` -/
def CASE_CITATION_PATTERN : RE :=
  seqR [.wordB, upperCI, plusR (clsCI partyClassP), wsP,
        altR [.cat (litCI 'v') dotOpt, seqR [litCI 'v', litCI 's', dotOpt], strCI ("versus")],
        wsP, upperCI, plusR (clsCI partyClassP), optR (litCI ','), wsP, digsCI, wsP,
        plusR (clsCI repClassP), wsS, digsCI,
        optR (seqR [litCI ',', wsS, digsCI]),
        seqR [wsP, litCI '(', plusR (clsCI (fun n => !(decide (n = cp ')')))),
              repN digCI 4, litCI ')'],
        .wordB]

/-- `SHORT_FORM_PATTERN` (case-sensitive, no `re.IGNORECASE` flag):
`\b([A-Z][A-Za-z0-9.'&\- ]+,?\s+\d+\s+[A-Za-z. ]+\s+at\s+\d+)\b` -/
def SHORT_FORM_PATTERN : RE :=
  seqR [.wordB, .cls isUpperC, plusR (.cls partyClassP), optR (lit ','), wsP,
        plusR (.cls isDigitC), wsP, plusR (.cls repClassP), wsP,
        strCS ("at"), wsP, plusR (.cls isDigitC), .wordB]

/-- `REGULATION_CITATION_PATTERN` (case-insensitive):
`\b(\d+\s+(?:C\.?F\.?R\.?)(?:\s+§+\s*|\s+sec\.?\s+|\s+section\s+)\d+(?:\.\d+)?[A-Za-z0-9\-\.]*)\b` -/
def REGULATION_CITATION_PATTERN : RE :=
  seqR [.wordB, digsCI, wsP,
        seqR [litCI 'C', dotOpt, litCI 'F', dotOpt, litCI 'R', dotOpt],
        secMarker, digsCI, optR (.cat (litCI '.') digsCI), .star (clsCI tailClassP), .wordB]

/-- Two case-insensitive letters, each with an optional dot, e.g. `N\.?Y\.?`. -/
def twoAbbrCI (a b : Char) : RE := seqR [litCI a, dotOpt, litCI b, dotOpt]

/-- `STATE_STATUTE_PATTERN` (case-insensitive):
`\b((?:Cal\.?|Calif\.?|N\.?Y\.?|New York|Tex\.?|Texas|Fla\.?|Florida|Ill\.?|Illinois|Pa\.?|Pennsylvania)\.?\s+(?:Penal|Civil|Civ\.?|Fam\.?|Prob\.?|Govt\.?|Gov\.?|Health|Saf\.?|Safety|Bus\.?|Bus\.\s+&\s+Prof\.?|Unif\.?|Commercial|Com\.?|Corr\.?|Ed\.?|Educ\.?|Elec\.?|Fish|Food|Harb\.?|Harbors|Ins\.?|Lab\.?|Labor|Pub\.?|Public|Rev\.?|Revenue|Sts\.?|Sts\.?\s+&\s+High\.?|Unemp\.?|Unemployment|Veh\.?|Vehicle|Wat\.?|Water|Welf\.?|Welfare)\s+(?:Code|Law|Ann\.?|Acts|Stat\.?|Statutes)?(?:\s+§+\s*|\s+sec\.?\s+|\s+section\s+)\d+[A-Za-z0-9\-\.]*)\b` -/
def STATE_STATUTE_PATTERN : RE :=
  seqR [.wordB,
        altR [abbrCI ("Cal"), abbrCI ("Calif"), twoAbbrCI 'N' 'Y', strCI ("New York"),
              abbrCI ("Tex"), strCI ("Texas"), abbrCI ("Fla"), strCI ("Florida"),
              abbrCI ("Ill"), strCI ("Illinois"), abbrCI ("Pa"), strCI ("Pennsylvania")],
        dotOpt, wsP,
        altR [strCI ("Penal"), strCI ("Civil"), abbrCI ("Civ"), abbrCI ("Fam"),
              abbrCI ("Prob"), abbrCI ("Govt"), abbrCI ("Gov"), strCI ("Health"),
              abbrCI ("Saf"), strCI ("Safety"), abbrCI ("Bus"),
              seqR [strCI ("Bus"), litCI '.', wsP, litCI '&', wsP, abbrCI ("Prof")],
              abbrCI ("Unif"), strCI ("Commercial"), abbrCI ("Com"), abbrCI ("Corr"),
              abbrCI ("Ed"), abbrCI ("Educ"), abbrCI ("Elec"), strCI ("Fish"),
              strCI ("Food"), abbrCI ("Harb"), strCI ("Harbors"), abbrCI ("Ins"),
              abbrCI ("Lab"), strCI ("Labor"), abbrCI ("Pub"), strCI ("Public"),
              abbrCI ("Rev"), strCI ("Revenue"), abbrCI ("Sts"),
              seqR [abbrCI ("Sts"), wsP, litCI '&', wsP, abbrCI ("High")],
              abbrCI ("Unemp"), strCI ("Unemployment"), abbrCI ("Veh"), strCI ("Vehicle"),
              abbrCI ("Wat"), strCI ("Water"), abbrCI ("Welf"), strCI ("Welfare")],
        wsP,
        optR (altR [strCI ("Code"), strCI ("Law"), abbrCI ("Ann"), strCI ("Acts"),
                    abbrCI ("Stat"), strCI ("Statutes")]),
        secMarker, digsCI, .star (clsCI tailClassP), .wordB]

/-- `STATE_REG_PATTERN` (case-insensitive):
`\b((?:Cal\.?|N\.?Y\.?|Tex\.?|Fla\.?|Ill\.?|Pa\.?)?\.?\s*(?:Code|Comp\.?)?\s*(?:of)?\s*(?:Regs?\.?|Regulations|Administrative|Admin\.?)\.?\s*(?:tit\.?|title)?\s*\.?\s*\d+(?:,\s+)?(?:\s+§+\s*|\s+sec\.?\s+|\s+section\s+)\d+[A-Za-z0-9\-\.]*)\b` -/
def STATE_REG_PATTERN : RE :=
  seqR [.wordB,
        optR (altR [abbrCI ("Cal"), twoAbbrCI 'N' 'Y', abbrCI ("Tex"), abbrCI ("Fla"),
                    abbrCI ("Ill"), abbrCI ("Pa")]),
        dotOpt, wsS,
        optR (altR [strCI ("Code"), abbrCI ("Comp")]), wsS,
        optR (strCI ("of")), wsS,
        altR [seqR [strCI ("Reg"), optR (litCI 's'), dotOpt], strCI ("Regulations"),
              strCI ("Administrative"), abbrCI ("Admin")],
        dotOpt, wsS,
        optR (altR [abbrCI ("tit"), strCI ("title")]), wsS, dotOpt, wsS,
        digsCI, optR (.cat (litCI ',') wsP),
        secMarker, digsCI, .star (clsCI tailClassP), .wordB]

/-- The author-name class `[A-Za-z.'\- ]`. -/
def authorClassP : Nat → Bool := fun n => alphaP n || oneOfP ['.', '\'', '-', ' '] n

/-- The journal-name class `[A-Za-z.&'\- ]`. -/
def journalClassP : Nat → Bool := fun n => alphaP n || oneOfP ['.', '&', '\'', '-', ' '] n

/-- The title class `[^,\n]`. -/
def notCommaNlP : Nat → Bool := fun n => !(decide (n = cp ',') || decide (n = 10))

/-- Case-sensitive `\.?`. -/
def dotOptCS : RE := optR (lit '.')

/-- `LAW_REVIEW_PATTERN` (case-SENSITIVE: compiled without `re.IGNORECASE`):
`\b((?:(?:[A-Z][A-Za-z.'\- ]+(?:,\s*(?:Jr\.?|Sr\.?|II|III|IV|V))?,\s+)?(?:\"[^\"]+\"|[A-Z][^,\n]{3,180}),\s+)?\d{1,3}\s+[A-Z][A-Za-z.&'\- ]+L\.?\s*Rev\.?\s+\d{1,5}(?:,\s*\d{1,5})?(?:\s*\(\d{4}\))?)\b` -/
def LAW_REVIEW_PATTERN : RE :=
  seqR [.wordB,
        optR (seqR [
          optR (seqR [.cls isUpperC, plusR (.cls authorClassP),
                      optR (seqR [lit ',', wsS,
                                  altR [.cat (strCS ("Jr")) dotOptCS,
                                        .cat (strCS ("Sr")) dotOptCS,
                                        strCS ("II"), strCS ("III"),
                                        strCS ("IV"), strCS ("V")]]),
                      lit ',', wsP]),
          altR [seqR [lit '"', plusR (.cls (fun n => !(decide (n = 34)))), lit '"'],
                seqR [.cls isUpperC, repRange (.cls notCommaNlP) 3 180]],
          lit ',', wsP]),
        repRange (.cls isDigitC) 1 3, wsP,
        .cls isUpperC, plusR (.cls journalClassP),
        lit 'L', dotOptCS, wsS, strCS ("Rev"), dotOptCS, wsP,
        repRange (.cls isDigitC) 1 5,
        optR (seqR [lit ',', wsS, repRange (.cls isDigitC) 1 5]),
        optR (seqR [wsS, lit '(', repN (.cls isDigitC) 4, lit ')']),
        .wordB]

/-- The release-identifier class `[A-Za-z0-9\-\/]`. -/
def relIdClassP : Nat → Bool := fun n => alphaP n || isDigitC n || oneOfP ['-', '/'] n

/-- The title-tail class `[^.;\n]`. -/
def notDotSemiNlP : Nat → Bool :=
  fun n => !(decide (n = cp '.') || decide (n = cp ';') || decide (n = 10))

/-- The subtitle tail `(?:[:\-]\s*[A-Z][^.;\n]+)?` shared by the FDA and
EPA branches of the agency pattern. -/
def agencyTail : RE :=
  optR (seqR [clsCI (oneOfP [':', '-']), wsS, upperCI, plusR (clsCI notDotSemiNlP)])

/-- `AGENCY_PUBLICATION_PATTERN` (case-insensitive):
`\b((?:\d+\s+Fed\.?\s+Reg\.?\s+\d+)|(?:(?:SEC|S\.?E\.?C\.?)\s+(?:Release|Rel\.?|No\.?)\s*(?:No\.?\s*)?[A-Za-z0-9\-\/]+)|(?:(?:FDA|Food and Drug Administration)\s+Guidance(?:\s+for\s+Industry)?(?:[:\-]\s*[A-Z][^.;\n]+)?)|(?:(?:EPA|Environmental Protection Agency)\s+(?:Guidance|Final Rule|Report|Technical Document|Notice)(?:[:\-]\s*[A-Z][^.;\n]+)?))\b` -/
def AGENCY_PUBLICATION_PATTERN : RE :=
  seqR [.wordB,
        altR [seqR [digsCI, wsP, abbrCI ("Fed"), wsP, abbrCI ("Reg"), wsP, digsCI],
              seqR [altR [strCI ("SEC"),
                          seqR [litCI 'S', dotOpt, litCI 'E', dotOpt, litCI 'C', dotOpt]],
                    wsP,
                    altR [strCI ("Release"), abbrCI ("Rel"), abbrCI ("No")],
                    wsS, optR (.cat (abbrCI ("No")) wsS),
                    plusR (clsCI relIdClassP)],
              seqR [altR [strCI ("FDA"), strCI ("Food and Drug Administration")],
                    wsP, strCI ("Guidance"),
                    optR (seqR [wsP, strCI ("for"), wsP, strCI ("Industry")]),
                    agencyTail],
              seqR [altR [strCI ("EPA"), strCI ("Environmental Protection Agency")],
                    wsP,
                    altR [strCI ("Guidance"), strCI ("Final Rule"), strCI ("Report"),
                          strCI ("Technical Document"), strCI ("Notice")],
                    agencyTail]],
        .wordB]

/-- A bracketed four-digit year `\[\d{4}\]`. -/
def yearBr : RE := seqR [litCI '[', repN digCI 4, litCI ']']

/-- `FOREIGN_LAW_PATTERN` (case-insensitive):
`(?<!\w)((?:\[\d{4}\]\s+UKSC\s+\d+)|(?:\[\d{4}\]\s+\d+\s+AC\s+\d+)|(?:Case\s+C-\d+\/\d+)|(?:Directive\s+\d{4}\/\d+\/EU)|(?:\[\d{4}\]\s+\d+\s+SCR\s+\d+)|(?:\[\d{4}\]\s+HCA\s+\d+))(?!\w)` -/
def FOREIGN_LAW_PATTERN : RE :=
  seqR [.noWordBefore,
        altR [seqR [yearBr, wsP, strCI ("UKSC"), wsP, digsCI],
              seqR [yearBr, wsP, digsCI, wsP, strCI ("AC"), wsP, digsCI],
              seqR [strCI ("Case"), wsP, litCI 'C', litCI '-', digsCI, litCI '/', digsCI],
              seqR [strCI ("Directive"), wsP, repN digCI 4, litCI '/', digsCI,
                    litCI '/', strCI ("EU")],
              seqR [yearBr, wsP, digsCI, wsP, strCI ("SCR"), wsP, digsCI],
              seqR [yearBr, wsP, strCI ("HCA"), wsP, digsCI]],
        .noWordAfter]

/-- The roman-numeral class `[IVXLC]`. -/
def romanP : Nat → Bool := oneOfP ['I', 'V', 'X', 'L', 'C']

/-- The section-tail class `[A-Za-z\-]`. -/
def secTailP : Nat → Bool := fun n => alphaP n || decide (n = cp '-')

/-- `CONSTITUTIONAL_PATTERN` (case-insensitive):
`\b((?:U\.?S\.?\s+Const\.?|(?:Ala\.?|Alaska|...|Wyo\.?)\s+Const\.?)(?:\s*,?\s*(?:amend\.?\s*[IVXLC]+|art\.?\s*[IVXLC]+|sec\.?\s*\d+[A-Za-z\-]*|cl\.?\s*\d+|pt\.?\s*[IVXLC]+|para\.?\s*\d+))+)\b` -/
def CONSTITUTIONAL_PATTERN : RE :=
  seqR [.wordB,
        .alt (seqR [litCI 'U', dotOpt, litCI 'S', dotOpt, wsP, abbrCI ("Const")])
             (seqR [altR [abbrCI ("Ala"), strCI ("Alaska"), abbrCI ("Ariz"), abbrCI ("Ark"),
                          abbrCI ("Cal"), abbrCI ("Calif"), abbrCI ("Colo"), abbrCI ("Conn"),
                          abbrCI ("Del"), abbrCI ("Fla"), abbrCI ("Ga"), abbrCI ("Haw"),
                          strCI ("Idaho"), abbrCI ("Ill"), abbrCI ("Ind"), strCI ("Iowa"),
                          abbrCI ("Kan"), abbrCI ("Ky"), abbrCI ("La"), strCI ("Maine"),
                          abbrCI ("Md"), abbrCI ("Mass"), abbrCI ("Mich"), abbrCI ("Minn"),
                          abbrCI ("Miss"), abbrCI ("Mo"), abbrCI ("Mont"), abbrCI ("Neb"),
                          abbrCI ("Nev"), twoAbbrCI 'N' 'H', twoAbbrCI 'N' 'J',
                          twoAbbrCI 'N' 'M', twoAbbrCI 'N' 'Y', twoAbbrCI 'N' 'C',
                          twoAbbrCI 'N' 'D', strCI ("Ohio"), abbrCI ("Okla"), abbrCI ("Or"),
                          abbrCI ("Pa"), twoAbbrCI 'R' 'I', twoAbbrCI 'S' 'C',
                          twoAbbrCI 'S' 'D', abbrCI ("Tenn"), abbrCI ("Tex"), strCI ("Utah"),
                          abbrCI ("Vt"), abbrCI ("Va"), abbrCI ("Wash"),
                          seqR [litCI 'W', dotOpt, litCI 'V', litCI 'a', dotOpt],
                          abbrCI ("Wis"), abbrCI ("Wyo")],
                    wsP, abbrCI ("Const")]),
        plusR (seqR [wsS, optR (litCI ','), wsS,
                     altR [seqR [abbrCI ("amend"), wsS, plusR (clsCI romanP)],
                           seqR [abbrCI ("art"), wsS, plusR (clsCI romanP)],
                           seqR [abbrCI ("sec"), wsS, digsCI, .star (clsCI secTailP)],
                           seqR [abbrCI ("cl"), wsS, digsCI],
                           seqR [abbrCI ("pt"), wsS, plusR (clsCI romanP)],
                           seqR [abbrCI ("para"), wsS, digsCI]]]),
        .wordB]

/-- `PATTERN_SPECS`: the registry, in source order. -/
def PATTERN_SPECS : List (String × RE) :=
  [("case", CASE_CITATION_PATTERN),
   ("case_short", SHORT_FORM_PATTERN),
   ("statute", STATUTE_CITATION_PATTERN),
   ("statute_state", STATE_STATUTE_PATTERN),
   ("regulation", REGULATION_CITATION_PATTERN),
   ("regulation_state", STATE_REG_PATTERN),
   ("law_review", LAW_REVIEW_PATTERN),
   ("agency_publication", AGENCY_PUBLICATION_PATTERN),
   ("foreign_law", FOREIGN_LAW_PATTERN),
   ("constitutional", CONSTITUTIONAL_PATTERN)]

/-! ### MD5 (the `hashlib.md5` used by `mock_validation_status`)

A faithful implementation of RFC 1321 on byte lists, with 32-bit words
represented as naturals reduced modulo `2 ^ 32`. -/

def m32 (n : Nat) : Nat := n % 4294967296

def bnot32 (n : Nat) : Nat := Nat.xor n 4294967295

def rotl32 (x s : Nat) : Nat := m32 (x * 2 ^ s) ||| (x / 2 ^ (32 - s))

/-- The 64 sine-derived constants of RFC 1321. -/
def md5K : List Nat :=
  [0xd76aa478, 0xe8c7b756, 0x242070db, 0xc1bdceee,
   0xf57c0faf, 0x4787c62a, 0xa8304613, 0xfd469501,
   0x698098d8, 0x8b44f7af, 0xffff5bb1, 0x895cd7be,
   0x6b901122, 0xfd987193, 0xa679438e, 0x49b40821,
   0xf61e2562, 0xc040b340, 0x265e5a51, 0xe9b6c7aa,
   0xd62f105d, 0x02441453, 0xd8a1e681, 0xe7d3fbc8,
   0x21e1cde6, 0xc33707d6, 0xf4d50d87, 0x455a14ed,
   0xa9e3e905, 0xfcefa3f8, 0x676f02d9, 0x8d2a4c8a,
   0xfffa3942, 0x8771f681, 0x6d9d6122, 0xfde5380c,
   0xa4beea44, 0x4bdecfa9, 0xf6bb4b60, 0xbebfbc70,
   0x289b7ec6, 0xeaa127fa, 0xd4ef3085, 0x04881d05,
   0xd9d4d039, 0xe6db99e5, 0x1fa27cf8, 0xc4ac5665,
   0xf4292244, 0x432aff97, 0xab9423a7, 0xfc93a039,
   0x655b59c3, 0x8f0ccc92, 0xffeff47d, 0x85845dd1,
   0x6fa87e4f, 0xfe2ce6e0, 0xa3014314, 0x4e0811a1,
   0xf7537e82, 0xbd3af235, 0x2ad7d2bb, 0xeb86d391]

/-- The per-step left-rotation amounts of RFC 1321. -/
def md5S : List Nat :=
  [7, 12, 17, 22, 7, 12, 17, 22, 7, 12, 17, 22, 7, 12, 17, 22,
   5, 9, 14, 20, 5, 9, 14, 20, 5, 9, 14, 20, 5, 9, 14, 20,
   4, 11, 16, 23, 4, 11, 16, 23, 4, 11, 16, 23, 4, 11, 16, 23,
   6, 10, 15, 21, 6, 10, 15, 21, 6, 10, 15, 21, 6, 10, 15, 21]

def md5F (i b c d : Nat) : Nat :=
  if i < 16 then (b &&& c) ||| (bnot32 b &&& d)
  else if i < 32 then (d &&& b) ||| (bnot32 d &&& c)
  else if i < 48 then Nat.xor (Nat.xor b c) d
  else Nat.xor c (b ||| bnot32 d)

def md5G (i : Nat) : Nat :=
  if i < 16 then i
  else if i < 32 then (5 * i + 1) % 16
  else if i < 48 then (3 * i + 5) % 16
  else (7 * i) % 16

def md5Step (M : List Nat) (st : Nat × Nat × Nat × Nat) (i : Nat) : Nat × Nat × Nat × Nat :=
  match st with
  | (a, b, c, d) =>
    let t := m32 (a + md5F i b c d + md5K.getD i 0 + M.getD (md5G i) 0)
    (d, m32 (b + rotl32 t (md5S.getD i 0)), b, c)

def md5Block (st : Nat × Nat × Nat × Nat) (M : List Nat) : Nat × Nat × Nat × Nat :=
  match st, (List.range 64).foldl (md5Step M) st with
  | (a0, b0, c0, d0), (a, b, c, d) => (m32 (a0 + a), m32 (b0 + b), m32 (c0 + c), m32 (d0 + d))

/-- Little-endian byte decomposition (`k` bytes). -/
def leBytes : Nat → Nat → List Nat
  | 0, _ => []
  | k + 1, n => (n % 256) :: leBytes k (n / 256)

/-- The sixteen little-endian 32-bit words of one 64-byte block. -/
def md5Words (block : List Nat) : List Nat :=
  (List.range 16).map fun j =>
    block.getD (4 * j) 0 + 256 * block.getD (4 * j + 1) 0 +
    65536 * block.getD (4 * j + 2) 0 + 16777216 * block.getD (4 * j + 3) 0

/-- RFC 1321 padding: a `0x80` byte, zeros to 56 mod 64, then the bit
length as a little-endian 64-bit quantity. -/
def md5Pad (msg : List Nat) : List Nat :=
  msg ++ [128] ++ List.replicate ((120 - (msg.length + 1) % 64) % 64) 0 ++
    leBytes 8 ((8 * msg.length) % 18446744073709551616)

/-- The 16-byte MD5 digest of a byte list. -/
def md5Digest (msg : List Nat) : List Nat :=
  let padded := md5Pad msg
  match (List.range (padded.length / 64)).foldl
      (fun st i => md5Block st (md5Words ((padded.drop (64 * i)).take 64)))
      (0x67452301, 0xefcdab89, 0x98badcfe, 0x10325476) with
  | (a, b, c, d) => leBytes 4 a ++ leBytes 4 b ++ leBytes 4 c ++ leBytes 4 d

/-- The value of the last character of `hexdigest()` (Python
`int(digest[-1], 16)`): the low nibble of the last digest byte. -/
def md5LastHexDigit (msg : List Nat) : Nat := (md5Digest msg).getLastD 0 % 16

/-- The hex digest read as one 128-bit number (most significant byte
first, exactly as the hexadecimal numeral prints). -/
def md5HexValue (msg : List Nat) : Nat := (md5Digest msg).foldl (fun acc b => 256 * acc + b) 0

/-- UTF-8 encoding of a list of code points (Python `str.encode("utf-8")`). -/
def utf8Encode (text : List Nat) : List Nat :=
  text.flatMap fun c =>
    if c < 128 then [c]
    else if c < 2048 then [192 + c / 64, 128 + c % 64]
    else if c < 65536 then [224 + c / 4096, 128 + c / 64 % 64, 128 + c % 64]
    else [240 + c / 262144, 128 + c / 4096 % 64, 128 + c / 64 % 64, 128 + c % 64]

/-! ### The matcher (`mock_validation_status`, `find_citations`,
`build_pattern_diagnostics`, the `/upload` aggregation) -/

/-- `mock_validation_status`: md5 the UTF-8 encoding, take the last hex
digit of the digest, reduce mod 3, map to the three buckets. -/
def mock_validation_status (citation_text : List Nat) : String :=
  let bucket := md5LastHexDigit (utf8Encode citation_text) % 3
  if bucket = 0 then "valid" else if bucket = 1 then "review" else "invalid"

structure CitationMatch where
  type : String
  text : List Nat
  status : String
deriving DecidableEq, Repr

/-- The dedup loop of `find_citations`: `seen` is the per-type set of
already-seen trimmed texts; the first occurrence wins. -/
def findLoop (text : List Nat) (citation_type : String) :
    List (Nat × Nat) → List (List Nat) → List CitationMatch
  | [], _ => []
  | (b, e) :: rest, seen =>
    let value := stripWS (slice text b e)
    if value ∈ seen then findLoop text citation_type rest seen
    else
      { type := citation_type, text := value, status := mock_validation_status value } ::
        findLoop text citation_type rest (value :: seen)

/-- `find_citations`: scan with the pattern, trim `group(1)` (= the whole
match span), deduplicate per type, attach the pseudo-validation status. -/
def find_citations (text : List Nat) (citation_type : String) (p : RE) : List CitationMatch :=
  findLoop text citation_type (finditer p text) []

structure PatternDiagnostic where
  type : String
  match_count : Nat
  samples : List (List Nat)
deriving DecidableEq, Repr

/-- `build_pattern_diagnostics`: per registered type, the count and the
first `sample_limit` texts of the identically-computed match list. -/
def build_pattern_diagnostics (text : List Nat) (pattern_specs : List (String × RE))
    (sample_limit : Nat := 5) : List PatternDiagnostic :=
  pattern_specs.map fun s =>
    let found := find_citations text s.1 s.2
    { type := s.1, match_count := found.length,
      samples := (found.take sample_limit).map (fun item => item.text) }

/-- The aggregation loop of `upload_docx`: `citations.extend(...)` over
the registry, in order. -/
def extractCitations (text : List Nat) : List CitationMatch :=
  PATTERN_SPECS.foldl (fun citations s => citations ++ find_citations text s.1 s.2) []

/-! ### The text normalizer (`normalize_extracted_text`) -/

/-- The `str.translate` table: U+00A0, U+2007, U+2009, U+200A, U+202F
become an ASCII space; U+2060 and U+FEFF are deleted. -/
def transChar (n : Nat) : Option Nat :=
  if n = 160 ∨ n = 8199 ∨ n = 8201 ∨ n = 8202 ∨ n = 8239 then some 32
  else if n = 8288 ∨ n = 65279 then none
  else some n

/-- The `re.sub(r"\s+", " ", ...)` step: every maximal whitespace run
becomes one ASCII space.  `inRun` records whether the previous character
was whitespace (i.e. the space for the current run was already emitted). -/
def collapseGo (inRun : Bool) : List Nat → List Nat
  | [] => []
  | c :: rest =>
    if isSpaceC c then
      if inRun then collapseGo true rest else 32 :: collapseGo true rest
    else c :: collapseGo false rest

def collapseWS (l : List Nat) : List Nat := collapseGo false l

/-- `normalize_extracted_text`: translate the exotic whitespace, collapse
every whitespace run to a single space, and strip the ends. -/
def normalize_extracted_text (text : List Nat) : List Nat :=
  stripWS (collapseWS (text.filterMap transChar))

/-! ### The upload endpoints (`read_docx_upload`, `upload_docx`,
`debug_docx`)

The docx container parser is the external `python-docx` library; the
embedding takes it as a parameter `docxParse` (returning `none` exactly
when `Document(...)` raises) together with the chunk extraction
`chunksOf` (the list of text chunks the four collector passes produce).
The three `HTTPException` sites are modelled by the three errors. -/

inductive UploadError where
  | unsupportedFormat
  | emptyInput
  | documentParse
deriving DecidableEq, Repr

structure UploadResult where
  filename : String
  citation_count : Nat
  citations : List CitationMatch
  extracted_text_preview : List Nat
deriving DecidableEq, Repr

structure DebugResult where
  filename : String
  raw_extracted_text : List Nat
  character_count : Nat
  pattern_diagnostics : List PatternDiagnostic
deriving DecidableEq, Repr

/-- Python `filename.lower().endswith(".docx")` (ASCII lowering). -/
def endsWithDocx (filename : String) : Bool :=
  List.isSuffixOf (encode (".docx"))
    ((encode filename).map (fun n => if isUpperC n then n + 32 else n))

/-- `extract_docx_text`: parse the container (a parse failure is the
`DocumentParseError` site), join the collected chunks with newlines, and
normalize. -/
def extract_docx_text {α : Type} (docxParse : List Nat → Option α)
    (chunksOf : α → List (List Nat)) (file_bytes : List Nat) :
    Except UploadError (List Nat) :=
  match docxParse file_bytes with
  | none => .error .documentParse
  | some d => .ok (normalize_extracted_text (List.intercalate [10] (chunksOf d)))

/-- `read_docx_upload`: the filename gate, then the empty-payload gate
(before any parsing), then text extraction. -/
def read_docx_upload {α : Type} (docxParse : List Nat → Option α)
    (chunksOf : α → List (List Nat)) (filename : String) (payload : List Nat) :
    Except UploadError (List Nat) :=
  if ¬ endsWithDocx filename then .error .unsupportedFormat
  else if payload = [] then .error .emptyInput
  else extract_docx_text docxParse chunksOf payload

/-- The `/upload` endpoint. -/
def upload_docx {α : Type} (docxParse : List Nat → Option α)
    (chunksOf : α → List (List Nat)) (filename : String) (payload : List Nat) :
    Except UploadError UploadResult :=
  match read_docx_upload docxParse chunksOf filename payload with
  | .error e => .error e
  | .ok text =>
    let citations := extractCitations text
    .ok { filename := filename, citation_count := citations.length, citations := citations,
          extracted_text_preview :=
            if text.length > 2000 then text.take 2000 ++ encode ("...") else text }

/-- The `/debug` endpoint. -/
def debug_docx {α : Type} (docxParse : List Nat → Option α)
    (chunksOf : α → List (List Nat)) (filename : String) (payload : List Nat) :
    Except UploadError DebugResult :=
  match read_docx_upload docxParse chunksOf filename payload with
  | .error e => .error e
  | .ok text =>
    .ok { filename := filename, raw_extracted_text := text, character_count := text.length,
          pattern_diagnostics := build_pattern_diagnostics text PATTERN_SPECS }

/-! ### Auxiliary specification-side definitions for the claims -/

/-- Boolean check: no two records of the list share both type and trimmed
text. -/
def noDupTypeTextB : List CitationMatch → Bool
  | [] => true
  | m :: rest =>
    rest.all (fun m2 => !(m.type == m2.type && m.text == m2.text)) && noDupTypeTextB rest

/-- Boolean check that `tryMatchAt` fails at each of the `n` positions
starting at `i`. -/
def noMatchRange (re : RE) (s : List Nat) (i n : Nat) : Bool :=
  (List.range' i n).all (fun j => (tryMatchAt re s j).isNone)

/-- Boolean characterization of a leftmost-first non-overlapping scan
starting at position `i`: the recorded matches are in strictly advancing
position order, every skipped position admits no match, every recorded
pair is exactly what matching at its start yields, and scanning resumes
after each consumed match. -/
def scanOKb (re : RE) (s : List Nat) : Nat → List (Nat × Nat) → Bool
  | i, [] => noMatchRange re s i (s.length + 1 - i)
  | i, (b, e) :: rest =>
    decide (i ≤ b) && noMatchRange re s i (b - i) && (tryMatchAt re s b == some e) &&
      scanOKb re s (max e (b + 1)) rest

/-- First-occurrence-wins deduplication of a list of texts. -/
def dedupFirstGo (seen : List (List Nat)) : List (List Nat) → List (List Nat)
  | [] => []
  | v :: rest =>
    if v ∈ seen then dedupFirstGo seen rest else v :: dedupFirstGo (v :: seen) rest

def dedupFirst (l : List (List Nat)) : List (List Nat) := dedupFirstGo [] l

/-- The trimmed `group(1)` texts of a scan, in scan order. -/
def scanTexts (p : RE) (text : List Nat) : List (List Nat) :=
  (finditer p text).map (fun be => stripWS (slice text be.1 be.2))

/-- The seven code points of the normalizer's exclusion set:
U+00A0, U+2007, U+2009, U+200A, U+202F, U+2060, U+FEFF. -/
def bad7 (n : Nat) : Bool :=
  decide (n = 160 ∨ n = 8199 ∨ n = 8201 ∨ n = 8202 ∨ n = 8239 ∨ n = 8288 ∨ n = 65279)

/-- No character of the list belongs to the exclusion set. -/
def noBad7 (l : List Nat) : Bool := l.all (fun n => !bad7 n)

/-- No two consecutive ASCII space characters. -/
def noDoubleSpace : List Nat → Bool
  | a :: b :: rest => !(a == 32 && b == 32) && noDoubleSpace (b :: rest)
  | _ => true

/-- Neither end of the list is whitespace. -/
def noEdgeWS (l : List Nat) : Bool :=
  (match l.head? with
   | none => true
   | some c => !isSpaceC c) &&
  (match l.getLast? with
   | none => true
   | some c => !isSpaceC c)

/-- Case-invariance of a pattern: every character test in it is
unchanged by ASCII case flipping of the character it examines (the
zero-width assertions only test `\w`-ness, which is case-invariant).
The recognizers the source compiles with `re.IGNORECASE` are built
exclusively from `ciP`-closed classes and therefore satisfy it. -/
inductive CI : RE → Prop where
  | eps : CI .eps
  | cls (p : Nat → Bool) : (∀ n, p (flipCase n) = p n) → CI (.cls p)
  | cat {a b : RE} : CI a → CI b → CI (.cat a b)
  | alt {a b : RE} : CI a → CI b → CI (.alt a b)
  | star {a : RE} : CI a → CI (.star a)
  | wordB : CI .wordB
  | noWordBefore : CI .noWordBefore
  | noWordAfter : CI .noWordAfter

/-- One buffer character is a case variant of another: equal, or equal
after an ASCII case flip. -/
def relCV (a b : Nat) : Prop := b = a ∨ b = flipCase a

/-- Boolean test that two buffers are ASCII case variants of each other:
same length, pointwise `relCV`. -/
def variantB : List Nat → List Nat → Bool
  | [], [] => true
  | a :: s, b :: s2 => (b == a || b == flipCase a) && variantB s s2
  | _, _ => false

/-- Status as claim C3 literally words it: hash the text's UTF-8 byte
encoding and reduce THE HASH (the 128-bit digest value) modulo 3, with
bucket 0 → valid, 1 → review, anything else → invalid.  (The code
instead reduces only the last hexadecimal digit of the digest modulo 3;
these disagree, see the C3 counterexample.) -/
def statusByHashMod3 (citation_text : List Nat) : String :=
  let bucket := md5HexValue (utf8Encode citation_text) % 3
  if bucket = 0 then "valid" else if bucket = 1 then "review" else "invalid"

/-! ## Theorems -/

theorem flipCase_flipCase (n : Nat) : flipCase (flipCase n) = n := by
  unfold flipCase isLowerC isUpperC btwB
  split_ifs with h1 h2 h3 h4 h5 h6 <;>
    simp_all only [decide_eq_true_eq] <;> omega

theorem isWordC_flipCase (n : Nat) : isWordC (flipCase n) = isWordC n := by
  unfold flipCase isWordC isLowerC isUpperC btwB
  split_ifs with h1 h2
  · simp only [decide_eq_true_eq] at h1
    rw [decide_eq_decide]
    omega
  · simp only [decide_eq_true_eq] at h1 h2
    rw [decide_eq_decide]
    omega
  · rfl

theorem ciP_flipCase (p : Nat → Bool) (n : Nat) : ciP p (flipCase n) = ciP p n := by
  unfold ciP
  rw [flipCase_flipCase]
  exact Bool.or_comm _ _

/-- C7: on the normalized text `"Brown v. Board of Education, 347 U.S. 483 (1954)."`
the matcher produces NO `case` match at all, contradicting the claimed
single match.  The compiled `CASE_CITATION_PATTERN` requires a non-empty
run of `[^)]` characters before the four year digits inside the
parenthetical (so a bare `(1954)` can never satisfy `\([^)]+\d{4}\)`),
and its trailing `\b` sits directly after the literal `)`, so the match
can only succeed when a word character immediately follows the closing
parenthesis — which a final `.` is not. -/
theorem c7_case_scenario_produces_no_match :
    find_citations (encode ("Brown v. Board of Education, 347 U.S. 483 (1954).")) ("case")
      CASE_CITATION_PATTERN = [] := by
  decide

/-! ### Structure of `find_citations` and the aggregation (C1, C4, C9) -/

theorem findLoop_type (text : List Nat) (ty : String) :
    ∀ (L : List (Nat × Nat)) (seen : List (List Nat)) (m : CitationMatch),
      m ∈ findLoop text ty L seen → m.type = ty := by
  intro L
  induction L with
  | nil => intro seen m h; simp [findLoop] at h
  | cons be rest ih =>
    intro seen m h
    obtain ⟨b, e⟩ := be
    simp only [findLoop] at h
    split at h
    · exact ih _ _ h
    · rcases List.mem_cons.mp h with h1 | h1
      · rw [h1]
      · exact ih _ _ h1

theorem findLoop_text_not_seen (text : List Nat) (ty : String) :
    ∀ (L : List (Nat × Nat)) (seen : List (List Nat)) (m : CitationMatch),
      m ∈ findLoop text ty L seen → m.text ∉ seen := by
  intro L
  induction L with
  | nil => intro seen m h; simp [findLoop] at h
  | cons be rest ih =>
    intro seen m h
    obtain ⟨b, e⟩ := be
    simp only [findLoop] at h
    split at h
    · exact ih _ _ h
    · rcases List.mem_cons.mp h with h1 | h1
      · rw [h1]
        simpa using by assumption
      · intro hmem
        exact ih _ _ h1 (List.mem_cons_of_mem _ hmem)

theorem findLoop_texts_nodup (text : List Nat) (ty : String) :
    ∀ (L : List (Nat × Nat)) (seen : List (List Nat)),
      (findLoop text ty L seen).Pairwise (fun a b => a.text ≠ b.text) := by
  intro L
  induction L with
  | nil => intro seen; simp [findLoop]
  | cons be rest ih =>
    intro seen
    obtain ⟨b, e⟩ := be
    simp only [findLoop]
    split
    · exact ih _
    · refine List.Pairwise.cons (fun m hm => ?_) (ih _)
      have := findLoop_text_not_seen text ty rest _ m hm
      intro hEq
      exact this (by rw [← hEq]; exact List.mem_cons_self _ _)

theorem find_citations_type (text : List Nat) (ty : String) (p : RE) (m : CitationMatch)
    (h : m ∈ find_citations text ty p) : m.type = ty :=
  findLoop_type text ty _ _ m h

theorem find_citations_texts_nodup (text : List Nat) (ty : String) (p : RE) :
    (find_citations text ty p).Pairwise (fun a b => a.text ≠ b.text) :=
  findLoop_texts_nodup text ty _ _

/-- The `citations.extend(...)` loop is concatenation in registry order. -/
theorem foldl_extend_eq_flatten (text : List Nat) :
    ∀ (specs : List (String × RE)) (init : List CitationMatch),
      specs.foldl (fun acc s => acc ++ find_citations text s.1 s.2) init =
        init ++ (specs.map (fun s => find_citations text s.1 s.2)).flatten := by
  intro specs
  induction specs with
  | nil => intro init; simp
  | cons s rest ih =>
    intro init
    simp only [List.foldl_cons, List.map_cons, List.flatten_cons, ih, List.append_assoc]

theorem extractCitations_eq (text : List Nat) :
    extractCitations text =
      (PATTERN_SPECS.map (fun s => find_citations text s.1 s.2)).flatten := by
  unfold extractCitations
  rw [foldl_extend_eq_flatten]
  simp

theorem mem_flatten_type (text : List Nat) :
    ∀ (specs : List (String × RE)) (m : CitationMatch),
      m ∈ (specs.map (fun s => find_citations text s.1 s.2)).flatten →
        m.type ∈ specs.map Prod.fst := by
  intro specs
  induction specs with
  | nil => intro m h; simp at h
  | cons s rest ih =>
    intro m h
    simp only [List.map_cons, List.flatten_cons, List.mem_append] at h
    rcases h with h | h
    · simp [find_citations_type text s.1 s.2 m h]
    · exact List.mem_cons_of_mem _ (ih m h)

theorem extract_pairwise (text : List Nat) :
    ∀ (specs : List (String × RE)), (specs.map Prod.fst).Nodup →
      ((specs.map (fun s => find_citations text s.1 s.2)).flatten).Pairwise
        (fun a b => ¬(a.type = b.type ∧ a.text = b.text)) := by
  intro specs
  induction specs with
  | nil => intro _; simp
  | cons s rest ih =>
    intro hnd
    simp only [List.map_cons, List.nodup_cons] at hnd
    simp only [List.map_cons, List.flatten_cons]
    rw [List.pairwise_append]
    refine ⟨?_, ih hnd.2, ?_⟩
    · exact (find_citations_texts_nodup text s.1 s.2).imp (fun h hc => h hc.2)
    · intro a ha b hb hc
      have hat := find_citations_type text s.1 s.2 a ha
      have hbt := mem_flatten_type text rest b hb
      rw [← hc.1, hat] at hbt
      exact hnd.1 hbt

theorem noDupTypeTextB_iff (l : List CitationMatch) :
    noDupTypeTextB l = true ↔
      l.Pairwise (fun a b => ¬(a.type = b.type ∧ a.text = b.text)) := by
  induction l with
  | nil => simp [noDupTypeTextB]
  | cons m rest ih =>
    simp only [noDupTypeTextB, Bool.and_eq_true, List.all_eq_true, List.pairwise_cons, ih]
    constructor
    · rintro ⟨h1, h2⟩
      refine ⟨fun b hb hc => ?_, h2⟩
      have := h1 b hb
      rw [hc.1, hc.2] at this
      simp at this
    · rintro ⟨h1, h2⟩
      refine ⟨fun b hb => ?_, h2⟩
      have := h1 b hb
      by_contra hne
      simp only [Bool.not_eq_true', Bool.not_eq_false, Bool.and_eq_true, beq_iff_eq] at hne
      exact this hne

/-- C1: for every input buffer, the concatenated extraction output (the
`/upload` citation list) never contains two CitationMatch records with
the same type and identical trimmed text: within one type the seen-set
discards repeats (first occurrence wins), and distinct registry entries
carry distinct type tags. -/
theorem c1_per_type_uniqueness (text : List Nat) :
    noDupTypeTextB (extractCitations text) = true := by
  rw [noDupTypeTextB_iff, extractCitations_eq]
  exact extract_pairwise text PATTERN_SPECS (by decide)

theorem filter_own_type (text : List Nat) (ty : String) (p : RE) :
    (find_citations text ty p).filter (fun m => m.type == ty) = find_citations text ty p := by
  refine List.filter_eq_self.mpr (fun m hm => ?_)
  simp [find_citations_type text ty p m hm]

theorem filter_other_type (text : List Nat) (ty : String) :
    ∀ (specs : List (String × RE)), ty ∉ specs.map Prod.fst →
      ((specs.map (fun s => find_citations text s.1 s.2)).flatten).filter
        (fun m => m.type == ty) = [] := by
  intro specs
  induction specs with
  | nil => intro _; simp
  | cons s rest ih =>
    intro hnm
    simp only [List.map_cons, List.mem_cons, not_or] at hnm
    simp only [List.map_cons, List.flatten_cons, List.filter_append]
    rw [ih hnm.2, List.append_nil]
    refine List.filter_eq_nil_iff.mpr (fun m hm => ?_)
    have := find_citations_type text s.1 s.2 m hm
    simp only [beq_iff_eq, this]
    exact fun hcon => hnm.1 hcon.symm

theorem diag_counts_general (text : List Nat) (sl : Nat) :
    ∀ (specs : List (String × RE)), (specs.map Prod.fst).Nodup →
      (build_pattern_diagnostics text specs sl).map (fun d => (d.type, d.match_count)) =
        specs.map (fun s => (s.1,
          (((specs.map (fun s2 => find_citations text s2.1 s2.2)).flatten).filter
            (fun m => m.type == s.1)).length)) := by
  intro specs
  induction specs with
  | nil => intro _; simp [build_pattern_diagnostics]
  | cons s rest ih =>
    intro hnd
    simp only [List.map_cons, List.nodup_cons] at hnd
    simp only [build_pattern_diagnostics, List.map_cons, List.map_map] at ih ⊢
    congr 1
    · simp only [List.flatten_cons, List.filter_append, filter_own_type,
        filter_other_type text s.1 rest hnd.1, List.append_nil]
    · rw [ih hnd.2]
      refine List.map_congr_left (fun s2 hs2 => ?_)
      have hne : s.1 ≠ s2.1 := by
        intro hcon
        exact hnd.1 (hcon ▸ List.mem_map_of_mem Prod.fst hs2)
      simp only [List.flatten_cons, List.filter_append]
      rw [show (find_citations text s.1 s.2).filter (fun m => m.type == s2.1) = [] from ?_]
      · simp
      · refine List.filter_eq_nil_iff.mpr (fun m hm => ?_)
        have := find_citations_type text s.1 s.2 m hm
        simp [this, hne]

/-- C4: for every input buffer and every registered citation type, the
number of records of that type in the primary `/upload` citation list
equals the `match_count` reported by `build_pattern_diagnostics` for that
type on the same input, because both run the identical
`find_citations` matching-and-dedup logic. -/
theorem c4_diagnostics_match_consistency (text : List Nat) :
    (build_pattern_diagnostics text PATTERN_SPECS).map (fun d => (d.type, d.match_count)) =
      PATTERN_SPECS.map (fun s =>
        (s.1, ((extractCitations text).filter (fun m => m.type == s.1)).length)) := by
  simp only [extractCitations_eq]
  exact diag_counts_general text 5 PATTERN_SPECS (by decide)

theorem noMatchRange_cons (re : RE) (s : List Nat) (i n : Nat)
    (hm : tryMatchAt re s i = none) (hr : noMatchRange re s (i + 1) n = true) :
    noMatchRange re s i (n + 1) = true := by
  unfold noMatchRange at hr ⊢
  rw [List.range'_succ i n 1, List.all_cons, hr, hm]
  rfl

theorem scanOKb_lift (re : RE) (s : List Nat) (i : Nat) (L : List (Nat × Nat))
    (hle : i ≤ s.length) (hm : tryMatchAt re s i = none)
    (hok : scanOKb re s (i + 1) L = true) : scanOKb re s i L = true := by
  cases L with
  | nil =>
    simp only [scanOKb] at hok ⊢
    rw [show s.length + 1 - i = (s.length + 1 - (i + 1)) + 1 by omega]
    exact noMatchRange_cons re s i _ hm hok
  | cons be rest =>
    obtain ⟨b, e⟩ := be
    simp only [scanOKb, Bool.and_eq_true, decide_eq_true_eq] at hok ⊢
    refine ⟨⟨⟨by omega, ?_⟩, hok.1.2⟩, hok.2⟩
    rw [show b - i = (b - (i + 1)) + 1 by omega]
    exact noMatchRange_cons re s i _ hm hok.1.1.2

theorem scanGas_ok (re : RE) (s : List Nat) :
    ∀ (gas i : Nat), s.length + 1 ≤ gas + i →
      scanOKb re s i (scanGas re s gas i) = true := by
  intro gas
  induction gas with
  | zero =>
    intro i hi
    simp only [scanGas, scanOKb]
    unfold noMatchRange
    rw [show s.length + 1 - i = 0 by omega]
    rfl
  | succ gas ih =>
    intro i hi
    simp only [scanGas]
    split
    · rename_i hle
      cases h : tryMatchAt re s i with
      | none =>
        exact scanOKb_lift re s i _ hle h (ih (i + 1) (by omega))
      | some e =>
        simp only [scanOKb, Bool.and_eq_true, decide_eq_true_eq]
        refine ⟨⟨⟨Nat.le_refl i, ?_⟩, by simp [h]⟩, ?_⟩
        · unfold noMatchRange
          rw [Nat.sub_self]
          rfl
        · refine ih (max e (i + 1)) ?_
          have := Nat.le_max_right e (i + 1)
          omega
    · rename_i hgt
      simp only [scanOKb]
      unfold noMatchRange
      rw [show s.length + 1 - i = 0 by omega]
      rfl

theorem findLoop_texts_dedup (text : List Nat) (ty : String) :
    ∀ (L : List (Nat × Nat)) (seen : List (List Nat)),
      (findLoop text ty L seen).map (fun m => m.text) =
        dedupFirstGo seen (L.map (fun be => stripWS (slice text be.1 be.2))) := by
  intro L
  induction L with
  | nil => intro seen; simp [findLoop, dedupFirstGo]
  | cons be rest ih =>
    intro seen
    obtain ⟨b, e⟩ := be
    simp only [findLoop, List.map_cons, dedupFirstGo]
    split
    · exact ih seen
    · simp only [List.map_cons]
      rw [ih _]

/-- C9: the `/upload` citation list is the concatenation, in registry
order, of the per-type `find_citations` results; each per-type scan is
the leftmost-first non-overlapping scan of the buffer (every position
skipped by the scan admits no match, each recorded match is exactly the
match obtained at its start, and scanning resumes after the consumed
match); and the per-type texts are that scan's trimmed texts with
first-occurrence-wins deduplication, preserving scan order. -/
theorem c9_registry_order_and_scan_order (text : List Nat) :
    (extractCitations text =
      (PATTERN_SPECS.map (fun s => find_citations text s.1 s.2)).flatten) ∧
    (∀ (p : RE) (s : List Nat), scanOKb p s 0 (finditer p s) = true) ∧
    (∀ (ty : String) (p : RE),
      (find_citations text ty p).map (fun m => m.text) = dedupFirst (scanTexts p text)) := by
  refine ⟨extractCitations_eq text, fun p s => ?_, fun ty p => ?_⟩
  · exact scanGas_ok p s (s.length + 1) 0 (by omega)
  · unfold find_citations dedupFirst scanTexts
    exact findLoop_texts_dedup text ty _ []

/-- C8: on `"See 42 U.S.C. § 1983 and 29 C.F.R. § 1614.105."` the matcher
yields exactly one `statute` match with trimmed text `"42 U.S.C. § 1983"`,
and exactly one `regulation` match with trimmed text
`"29 C.F.R. § 1614.105"`. -/
theorem c8_scenario_b_statute_and_regulation :
    ((find_citations (encode ("See 42 U.S.C. § 1983 and 29 C.F.R. § 1614.105.")) ("statute")
        STATUTE_CITATION_PATTERN).map (fun m => (m.type, m.text)) =
      [(("statute"), encode ("42 U.S.C. § 1983"))]) ∧
    ((find_citations (encode ("See 42 U.S.C. § 1983 and 29 C.F.R. § 1614.105.")) ("regulation")
        REGULATION_CITATION_PATTERN).map (fun m => (m.type, m.text)) =
      [(("regulation"), encode ("29 C.F.R. § 1614.105"))]) := by
  constructor <;> decide

/-! ### The normalizer (C2, C10) -/

theorem transChar_some_not_bad (a c : Nat) (h : transChar a = some c) : bad7 c = false := by
  unfold transChar at h
  split_ifs at h with h1 h2
  · injection h with h'
    subst h'
    decide
  · injection h with h'
    subst h'
    unfold bad7
    push_neg at h1 h2
    simp only [decide_eq_false_iff_not]
    omega

theorem transChar_fix (c : Nat) (h : bad7 c = false) : transChar c = some c := by
  unfold bad7 at h
  simp only [decide_eq_false_iff_not] at h
  push_neg at h
  unfold transChar
  split_ifs with h1 h2
  · exfalso
    omega
  · exfalso
    omega
  · rfl

theorem collapseGo_cons_space_false (c : Nat) (l : List Nat) (h : isSpaceC c = true) :
    collapseGo false (c :: l) = 32 :: collapseGo true l := by
  simp [collapseGo, h]

theorem collapseGo_cons_space_true (c : Nat) (l : List Nat) (h : isSpaceC c = true) :
    collapseGo true (c :: l) = collapseGo true l := by
  simp [collapseGo, h]

theorem collapseGo_cons_nonspace (d : Nat) (hd : isSpaceC d = false) (f : Bool) (r : List Nat) :
    collapseGo f (d :: r) = d :: collapseGo false r := by
  simp [collapseGo, hd]

theorem dropTrailWS_cons (c : Nat) (l : List Nat) :
    dropTrailWS (c :: l) =
      match dropTrailWS l with
      | [] => if isSpaceC c then [] else [c]
      | r => c :: r := rfl

theorem mem_collapseGo :
    ∀ (l : List Nat) (f : Bool) (c : Nat), c ∈ collapseGo f l →
      c = 32 ∨ (c ∈ l ∧ isSpaceC c = false) := by
  intro l
  induction l with
  | nil => intro f c h; simp [collapseGo] at h
  | cons a rest ih =>
    intro f c h
    cases ha : isSpaceC a with
    | true =>
      cases f with
      | true =>
        rw [collapseGo_cons_space_true a rest ha] at h
        rcases ih true c h with h1 | h1
        · exact Or.inl h1
        · exact Or.inr ⟨List.mem_cons_of_mem _ h1.1, h1.2⟩
      | false =>
        rw [collapseGo_cons_space_false a rest ha] at h
        rcases List.mem_cons.mp h with h1 | h1
        · exact Or.inl h1
        · rcases ih true c h1 with h2 | h2
          · exact Or.inl h2
          · exact Or.inr ⟨List.mem_cons_of_mem _ h2.1, h2.2⟩
    | false =>
      rw [collapseGo_cons_nonspace a ha f rest] at h
      rcases List.mem_cons.mp h with h1 | h1
      · subst h1
        exact Or.inr ⟨List.mem_cons_self _ _, ha⟩
      · rcases ih false c h1 with h2 | h2
        · exact Or.inl h2
        · exact Or.inr ⟨List.mem_cons_of_mem _ h2.1, h2.2⟩

theorem head_collapseGo_true :
    ∀ (l : List Nat) (d : Nat) (r : List Nat), collapseGo true l = d :: r →
      isSpaceC d = false := by
  intro l
  induction l with
  | nil => intro d r h; simp [collapseGo] at h
  | cons a rest ih =>
    intro d r h
    cases ha : isSpaceC a with
    | true =>
      rw [collapseGo_cons_space_true a rest ha] at h
      exact ih d r h
    | false =>
      rw [collapseGo_cons_nonspace a ha true rest] at h
      injection h with h1 h2
      rw [← h1]
      exact ha

theorem nds_tail (a : Nat) (l : List Nat) (h : noDoubleSpace (a :: l) = true) :
    noDoubleSpace l = true := by
  cases l with
  | nil => rfl
  | cons b r =>
    simp only [noDoubleSpace, Bool.and_eq_true] at h
    exact h.2

theorem noDoubleSpace_collapseGo :
    ∀ (l : List Nat) (f : Bool), noDoubleSpace (collapseGo f l) = true := by
  intro l
  induction l with
  | nil => intro f; simp [collapseGo, noDoubleSpace]
  | cons a rest ih =>
    intro f
    cases ha : isSpaceC a with
    | false =>
      rw [collapseGo_cons_nonspace a ha f rest]
      cases hX : collapseGo false rest with
      | nil => simp [noDoubleSpace]
      | cons d r =>
        have hnd : noDoubleSpace (d :: r) = true := by
          rw [← hX]
          exact ih false
        have ha32 : (a == 32) = false := by
          simp only [beq_eq_false_iff_ne, ne_eq]
          intro hc
          subst hc
          exact absurd ha (by decide)
        simp only [noDoubleSpace, Bool.and_eq_true]
        exact ⟨by simp [ha32], hnd⟩
    | true =>
      cases f with
      | true =>
        rw [collapseGo_cons_space_true a rest ha]
        exact ih true
      | false =>
        rw [collapseGo_cons_space_false a rest ha]
        cases hY : collapseGo true rest with
        | nil => simp [noDoubleSpace]
        | cons d r =>
          have hd : isSpaceC d = false := head_collapseGo_true rest d r hY
          have hnd : noDoubleSpace (d :: r) = true := by
            rw [← hY]
            exact ih true
          have hd32 : (d == 32) = false := by
            simp only [beq_eq_false_iff_ne, ne_eq]
            intro hc
            subst hc
            exact absurd hd (by decide)
          simp only [noDoubleSpace, Bool.and_eq_true]
          exact ⟨by simp [hd32], hnd⟩

theorem nds_dropWhile (p : Nat → Bool) :
    ∀ (l : List Nat), noDoubleSpace l = true → noDoubleSpace (l.dropWhile p) = true := by
  intro l
  induction l with
  | nil => intro h; exact h
  | cons a rest ih =>
    intro h
    cases hp : p a with
    | true =>
      rw [List.dropWhile_cons_of_pos hp]
      exact ih (nds_tail a rest h)
    | false =>
      rw [List.dropWhile_cons_of_neg (by simp [hp])]
      exact h

theorem head_dropTrailWS (l : List Nat) (d : Nat)
    (h : (dropTrailWS l).head? = some d) : l.head? = some d := by
  cases l with
  | nil => simp [dropTrailWS] at h
  | cons c rest =>
    simp only [dropTrailWS] at h
    rcases hr : dropTrailWS rest with _ | ⟨e, r⟩ <;> rw [hr] at h
    · split_ifs at h with hs
      · simp at h
      · rw [List.head?_cons]
        simpa using h
    · rw [List.head?_cons]
      simpa using h

theorem mem_dropTrailWS : ∀ (l : List Nat) (c : Nat), c ∈ dropTrailWS l → c ∈ l := by
  intro l
  induction l with
  | nil => intro c h; simp [dropTrailWS] at h
  | cons a rest ih =>
    intro c h
    simp only [dropTrailWS] at h
    rcases hr : dropTrailWS rest with _ | ⟨e, r⟩ <;> rw [hr] at h
    · split_ifs at h with hs
      · simp at h
      · simp only [List.mem_singleton] at h
        subst h
        exact List.mem_cons_self _ _
    · rcases List.mem_cons.mp h with h1 | h1
      · subst h1
        exact List.mem_cons_self _ _
      · refine List.mem_cons_of_mem _ (ih c ?_)
        rw [hr]
        exact h1

theorem nds_dropTrailWS :
    ∀ (l : List Nat), noDoubleSpace l = true → noDoubleSpace (dropTrailWS l) = true := by
  intro l
  induction l with
  | nil => intro h; exact h
  | cons c rest ih =>
    intro h
    simp only [dropTrailWS]
    rcases hr : dropTrailWS rest with _ | ⟨d, r⟩
    · split_ifs <;> simp [noDoubleSpace]
    · have hnd : noDoubleSpace (d :: r) = true := by
        rw [← hr]
        exact ih (nds_tail c rest h)
      have hhead : rest.head? = some d := by
        refine head_dropTrailWS rest d ?_
        rw [hr]
        rfl
      cases rest with
      | nil => simp at hhead
      | cons r0 rest2 =>
        simp only [List.head?_cons, Option.some.injEq] at hhead
        subst hhead
        simp only [noDoubleSpace, Bool.and_eq_true] at h
        simp only [noDoubleSpace, Bool.and_eq_true]
        exact ⟨h.1, hnd⟩

theorem getLast_dropTrailWS :
    ∀ (l : List Nat) (d : Nat), (dropTrailWS l).getLast? = some d → isSpaceC d = false := by
  intro l
  induction l with
  | nil => intro d h; simp [dropTrailWS] at h
  | cons c rest ih =>
    intro d h
    simp only [dropTrailWS] at h
    rcases hr : dropTrailWS rest with _ | ⟨e, r⟩ <;> rw [hr] at h
    · split_ifs at h with hs
      · simp at h
      · simp only [List.getLast?_singleton, Option.some.injEq] at h
        subst h
        simpa using hs
    · rw [List.getLast?_cons_cons] at h
      refine ih d ?_
      rw [hr]
      exact h

theorem head_dropWhileWS :
    ∀ (l : List Nat) (c : Nat), ((l.dropWhile isSpaceC).head? = some c) → isSpaceC c = false := by
  intro l
  induction l with
  | nil => intro c h; simp at h
  | cons a rest ih =>
    intro c h
    cases hp : isSpaceC a with
    | true =>
      rw [List.dropWhile_cons_of_pos hp] at h
      exact ih c h
    | false =>
      rw [List.dropWhile_cons_of_neg (by simp [hp])] at h
      simp only [List.head?_cons, Option.some.injEq] at h
      subst h
      exact hp

theorem collapse_fix :
    ∀ (l : List Nat), (∀ c ∈ l, isSpaceC c = true → c = 32) → noDoubleSpace l = true →
      collapseGo false l = l := by
  intro l
  induction l with
  | nil => intro _ _; rfl
  | cons c rest ih =>
    intro hws hnd
    cases hc : isSpaceC c with
    | false =>
      rw [collapseGo_cons_nonspace c hc false rest]
      rw [ih (fun a ha hs => hws a (List.mem_cons_of_mem _ ha) hs) (nds_tail c rest hnd)]
    | true =>
      have hc32 : c = 32 := hws c (List.mem_cons_self _ _) hc
      subst hc32
      cases rest with
      | nil =>
        rw [collapseGo_cons_space_false _ _ hc]
        rfl
      | cons d r =>
        have hd : isSpaceC d = false := by
          by_contra hcon
          have hd32 : d = 32 :=
            hws d (List.mem_cons_of_mem _ (List.mem_cons_self _ _))
              (by revert hcon; cases isSpaceC d <;> simp)
          subst hd32
          simp [noDoubleSpace] at hnd
        have htail : collapseGo false (d :: r) = d :: r :=
          ih (fun a ha hs => hws a (List.mem_cons_of_mem _ ha) hs) (nds_tail _ _ hnd)
        rw [collapseGo_cons_nonspace d hd false r] at htail
        have hr : collapseGo false r = r := by
          injection htail
        rw [collapseGo_cons_space_false _ _ hc, collapseGo_cons_nonspace d hd true r, hr]

theorem filterMap_transChar_fix :
    ∀ (l : List Nat), (∀ c ∈ l, transChar c = some c) → l.filterMap transChar = l := by
  intro l
  induction l with
  | nil => intro _; rfl
  | cons c rest ih =>
    intro h
    rw [List.filterMap_cons, h c (List.mem_cons_self _ _),
      ih (fun a ha => h a (List.mem_cons_of_mem _ ha))]

theorem dropWhileWS_eq_self (l : List Nat)
    (h : ∀ c, l.head? = some c → isSpaceC c = false) : l.dropWhile isSpaceC = l := by
  cases l with
  | nil => rfl
  | cons a rest =>
    rw [List.dropWhile_cons_of_neg (by simp [h a rfl])]

theorem dropTrailWS_eq_self :
    ∀ (l : List Nat), (∀ c, l.getLast? = some c → isSpaceC c = false) → dropTrailWS l = l := by
  intro l
  induction l with
  | nil => intro _; rfl
  | cons c rest ih =>
    intro h
    cases rest with
    | nil =>
      simp only [dropTrailWS]
      rw [if_neg]
      simp only [Bool.not_eq_true]
      exact h c rfl
    | cons d r =>
      have htail : dropTrailWS (d :: r) = d :: r := by
        refine ih (fun e he => h e ?_)
        rw [List.getLast?_cons_cons]
        exact he
      rw [dropTrailWS_cons, htail]

theorem norm_not_bad (t : List Nat) (c : Nat)
    (h : c ∈ normalize_extracted_text t) : bad7 c = false := by
  unfold normalize_extracted_text stripWS dropLeadWS collapseWS at h
  have h2 := (List.dropWhile_sublist isSpaceC).subset (mem_dropTrailWS _ c h)
  rcases mem_collapseGo _ false c h2 with h3 | h3
  · subst h3
    decide
  · rcases List.mem_filterMap.mp h3.1 with ⟨a, _, ha⟩
    exact transChar_some_not_bad a c ha

theorem norm_ws32 (t : List Nat) (c : Nat)
    (h : c ∈ normalize_extracted_text t) (hs : isSpaceC c = true) : c = 32 := by
  unfold normalize_extracted_text stripWS dropLeadWS collapseWS at h
  have h2 := (List.dropWhile_sublist isSpaceC).subset (mem_dropTrailWS _ c h)
  rcases mem_collapseGo _ false c h2 with h3 | h3
  · exact h3
  · rw [h3.2] at hs
    cases hs

theorem norm_nds (t : List Nat) : noDoubleSpace (normalize_extracted_text t) = true := by
  unfold normalize_extracted_text stripWS dropLeadWS collapseWS
  exact nds_dropTrailWS _ (nds_dropWhile isSpaceC _ (noDoubleSpace_collapseGo _ false))

theorem norm_head (t : List Nat) (c : Nat)
    (h : (normalize_extracted_text t).head? = some c) : isSpaceC c = false := by
  unfold normalize_extracted_text stripWS dropLeadWS collapseWS at h
  exact head_dropWhileWS _ c (head_dropTrailWS _ c h)

theorem norm_getLast (t : List Nat) (c : Nat)
    (h : (normalize_extracted_text t).getLast? = some c) : isSpaceC c = false := by
  unfold normalize_extracted_text stripWS dropLeadWS collapseWS at h
  exact getLast_dropTrailWS _ c h

/-- C2: for every input, the normalized buffer contains none of U+00A0,
U+2007, U+2009, U+200A, U+202F, U+2060, U+FEFF (the first five become an
ASCII space, the last two are deleted), never contains two consecutive
ASCII spaces (every maximal whitespace run is collapsed to one space),
and carries no leading or trailing whitespace (the buffer is trimmed). -/
theorem c2_normalization_invariant (t : List Nat) :
    (noBad7 (normalize_extracted_text t) && noDoubleSpace (normalize_extracted_text t) &&
      noEdgeWS (normalize_extracted_text t)) = true := by
  simp only [Bool.and_eq_true]
  refine ⟨⟨?_, norm_nds t⟩, ?_⟩
  · unfold noBad7
    rw [List.all_eq_true]
    intro c hc
    simp [norm_not_bad t c hc]
  · unfold noEdgeWS
    rw [Bool.and_eq_true]
    constructor
    · cases hh : (normalize_extracted_text t).head? with
      | none => rfl
      | some c => simp [norm_head t c hh]
    · cases hh : (normalize_extracted_text t).getLast? with
      | none => rfl
      | some c => simp [norm_getLast t c hh]

/-- C10: the text normalizer is idempotent — applying
`normalize_extracted_text` to its own output returns it unchanged. -/
theorem c10_normalize_idempotent (t : List Nat) :
    normalize_extracted_text (normalize_extracted_text t) = normalize_extracted_text t := by
  have h1 : (normalize_extracted_text t).filterMap transChar = normalize_extracted_text t :=
    filterMap_transChar_fix _ (fun c hc => transChar_fix c (norm_not_bad t c hc))
  have h2 : collapseGo false (normalize_extracted_text t) = normalize_extracted_text t :=
    collapse_fix _ (fun c hc hs => norm_ws32 t c hc hs) (norm_nds t)
  have h3 : (normalize_extracted_text t).dropWhile isSpaceC = normalize_extracted_text t :=
    dropWhileWS_eq_self _ (fun c hc => norm_head t c hc)
  have h4 : dropTrailWS (normalize_extracted_text t) = normalize_extracted_text t :=
    dropTrailWS_eq_self _ (fun c hc => norm_getLast t c hc)
  show stripWS (collapseWS ((normalize_extracted_text t).filterMap transChar)) =
    normalize_extracted_text t
  rw [h1]
  unfold collapseWS
  rw [h2]
  unfold stripWS dropLeadWS
  rw [h3, h4]

/-! ### Case sensitivity of the recognizers (C5) -/

theorem isSpaceC_flipCase (n : Nat) : isSpaceC (flipCase n) = isSpaceC n := by
  unfold flipCase isLowerC isUpperC btwB
  split_ifs with h1 h2
  · simp only [decide_eq_true_eq] at h1
    unfold isSpaceC
    rw [decide_eq_decide]
    omega
  · simp only [decide_eq_true_eq] at h1 h2
    unfold isSpaceC
    rw [decide_eq_decide]
    omega
  · rfl

theorem ci_clsCI (p : Nat → Bool) : CI (clsCI p) := CI.cls _ (ciP_flipCase p)

theorem ci_litCI (c : Char) : CI (litCI c) := ci_clsCI _

theorem ci_wsC : CI wsC := CI.cls _ isSpaceC_flipCase

theorem ci_wsP : CI wsP := CI.cat ci_wsC (CI.star ci_wsC)

theorem ci_wsS : CI wsS := CI.star ci_wsC

theorem ci_digCI : CI digCI := ci_clsCI _

theorem ci_digsCI : CI digsCI := CI.cat ci_digCI (CI.star ci_digCI)

theorem ci_upperCI : CI upperCI := ci_clsCI _

theorem ci_dotOpt : CI dotOpt := CI.alt (ci_litCI '.') CI.eps

theorem ci_seq_nil : CI (seqR []) := CI.eps

theorem ci_seq_cons (r : RE) (l : List RE) (h1 : CI r) (h2 : CI (seqR l)) :
    CI (seqR (r :: l)) := CI.cat h1 h2

theorem ci_alt_nil : CI (altR []) := CI.cls _ (fun _ => rfl)

theorem ci_alt_cons (r : RE) (l : List RE) (h1 : CI r) (h2 : CI (altR l)) :
    CI (altR (r :: l)) := CI.alt h1 h2

theorem ci_seq_map_litCI : ∀ (cs : List Char), CI (seqR (cs.map litCI)) := by
  intro cs
  induction cs with
  | nil => exact ci_seq_nil
  | cons c rest ih => exact ci_seq_cons _ _ (ci_litCI c) ih

theorem ci_strCI (s : String) : CI (strCI s) := ci_seq_map_litCI s.data

theorem ci_optR (r : RE) (h : CI r) : CI (optR r) := CI.alt h CI.eps

theorem ci_plusR (r : RE) (h : CI r) : CI (plusR r) := CI.cat h (CI.star h)

theorem ci_repN (r : RE) (n : Nat) (h : CI r) : CI (repN r n) := by
  induction n with
  | zero => exact CI.eps
  | succ n ih => exact CI.cat h ih

theorem ci_repUpTo (r : RE) (n : Nat) (h : CI r) : CI (repUpTo r n) := by
  induction n with
  | zero => exact CI.eps
  | succ n ih => exact CI.alt (CI.cat h ih) CI.eps

theorem ci_repRange (r : RE) (lo hi : Nat) (h : CI r) : CI (repRange r lo hi) :=
  CI.cat (ci_repN r lo h) (ci_repUpTo r (hi - lo) h)

theorem ci_abbrCI (s : String) : CI (abbrCI s) := CI.cat (ci_strCI s) ci_dotOpt

theorem ci_twoAbbrCI (a b : Char) : CI (twoAbbrCI a b) := by
  unfold twoAbbrCI
  exact ci_seq_cons _ _ (ci_litCI a) (ci_seq_cons _ _ ci_dotOpt
    (ci_seq_cons _ _ (ci_litCI b) (ci_seq_cons _ _ ci_dotOpt ci_seq_nil)))

theorem ci_secMarker : CI secMarker := by
  unfold secMarker
  repeat
    first
    | exact CI.eps
    | exact ci_seq_nil
    | exact ci_alt_nil
    | exact ci_wsP
    | exact ci_wsS
    | exact ci_dotOpt
    | exact ci_strCI _
    | exact ci_litCI _
    | apply ci_seq_cons
    | apply ci_alt_cons
    | apply ci_plusR

theorem ci_yearBr : CI yearBr := by
  unfold yearBr
  repeat
    first
    | exact ci_seq_nil
    | exact ci_litCI _
    | exact ci_digCI
    | apply ci_seq_cons
    | apply ci_repN

theorem ci_agencyTail : CI agencyTail := by
  unfold agencyTail
  repeat
    first
    | exact ci_seq_nil
    | exact ci_wsS
    | exact ci_upperCI
    | exact ci_clsCI _
    | apply ci_seq_cons
    | apply ci_optR
    | apply ci_plusR

theorem ci_CASE : CI CASE_CITATION_PATTERN := by
  unfold CASE_CITATION_PATTERN
  repeat
    first
    | exact CI.wordB
    | exact CI.eps
    | exact ci_seq_nil
    | exact ci_alt_nil
    | exact ci_wsP
    | exact ci_wsS
    | exact ci_digsCI
    | exact ci_digCI
    | exact ci_upperCI
    | exact ci_dotOpt
    | exact ci_strCI _
    | exact ci_litCI _
    | exact ci_clsCI _
    | apply ci_seq_cons
    | apply ci_alt_cons
    | apply ci_optR
    | apply ci_plusR
    | apply ci_repN
    | apply CI.cat
    | apply CI.star

theorem ci_STATUTE : CI STATUTE_CITATION_PATTERN := by
  unfold STATUTE_CITATION_PATTERN
  repeat
    first
    | exact CI.wordB
    | exact ci_seq_nil
    | exact ci_alt_nil
    | exact ci_wsP
    | exact ci_digsCI
    | exact ci_dotOpt
    | exact ci_secMarker
    | exact ci_litCI _
    | exact ci_clsCI _
    | apply ci_seq_cons
    | apply ci_alt_cons
    | apply CI.star

theorem ci_STATE_STATUTE : CI STATE_STATUTE_PATTERN := by
  unfold STATE_STATUTE_PATTERN
  repeat
    first
    | exact CI.wordB
    | exact ci_seq_nil
    | exact ci_alt_nil
    | exact ci_wsP
    | exact ci_dotOpt
    | exact ci_digsCI
    | exact ci_secMarker
    | exact ci_strCI _
    | exact ci_litCI _
    | exact ci_clsCI _
    | exact ci_abbrCI _
    | exact ci_twoAbbrCI _ _
    | apply ci_seq_cons
    | apply ci_alt_cons
    | apply ci_optR
    | apply CI.star

theorem ci_REGULATION : CI REGULATION_CITATION_PATTERN := by
  unfold REGULATION_CITATION_PATTERN
  repeat
    first
    | exact CI.wordB
    | exact ci_seq_nil
    | exact ci_wsP
    | exact ci_digsCI
    | exact ci_dotOpt
    | exact ci_secMarker
    | exact ci_litCI _
    | exact ci_clsCI _
    | apply ci_seq_cons
    | apply ci_optR
    | apply CI.cat
    | apply CI.star

theorem ci_STATE_REG : CI STATE_REG_PATTERN := by
  unfold STATE_REG_PATTERN
  repeat
    first
    | exact CI.wordB
    | exact ci_seq_nil
    | exact ci_alt_nil
    | exact ci_wsP
    | exact ci_wsS
    | exact ci_digsCI
    | exact ci_dotOpt
    | exact ci_secMarker
    | exact ci_strCI _
    | exact ci_litCI _
    | exact ci_clsCI _
    | exact ci_abbrCI _
    | exact ci_twoAbbrCI _ _
    | apply ci_seq_cons
    | apply ci_alt_cons
    | apply ci_optR
    | apply CI.cat
    | apply CI.star

theorem ci_AGENCY : CI AGENCY_PUBLICATION_PATTERN := by
  unfold AGENCY_PUBLICATION_PATTERN
  repeat
    first
    | exact CI.wordB
    | exact ci_seq_nil
    | exact ci_alt_nil
    | exact ci_wsP
    | exact ci_wsS
    | exact ci_digsCI
    | exact ci_dotOpt
    | exact ci_agencyTail
    | exact ci_strCI _
    | exact ci_litCI _
    | exact ci_clsCI _
    | exact ci_abbrCI _
    | apply ci_seq_cons
    | apply ci_alt_cons
    | apply ci_optR
    | apply ci_plusR
    | apply CI.cat

theorem ci_FOREIGN : CI FOREIGN_LAW_PATTERN := by
  unfold FOREIGN_LAW_PATTERN
  repeat
    first
    | exact CI.noWordBefore
    | exact CI.noWordAfter
    | exact ci_seq_nil
    | exact ci_alt_nil
    | exact ci_wsP
    | exact ci_digsCI
    | exact ci_digCI
    | exact ci_yearBr
    | exact ci_strCI _
    | exact ci_litCI _
    | apply ci_seq_cons
    | apply ci_alt_cons
    | apply ci_repN

theorem ci_CONSTITUTIONAL : CI CONSTITUTIONAL_PATTERN := by
  unfold CONSTITUTIONAL_PATTERN
  repeat
    first
    | exact CI.wordB
    | exact ci_seq_nil
    | exact ci_alt_nil
    | exact ci_wsP
    | exact ci_wsS
    | exact ci_digsCI
    | exact ci_dotOpt
    | exact ci_strCI _
    | exact ci_litCI _
    | exact ci_clsCI _
    | exact ci_abbrCI _
    | exact ci_twoAbbrCI _ _
    | apply ci_seq_cons
    | apply ci_alt_cons
    | apply ci_optR
    | apply ci_plusR
    | apply CI.alt
    | apply CI.star

theorem variantB_forall2 :
    ∀ (s s2 : List Nat), variantB s s2 = true → List.Forall₂ relCV s s2 := by
  intro s
  induction s with
  | nil =>
    intro s2 h
    cases s2 with
    | nil => exact List.Forall₂.nil
    | cons b t => simp [variantB] at h
  | cons a s ih =>
    intro s2 h
    cases s2 with
    | nil => simp [variantB] at h
    | cons b t =>
      simp only [variantB, Bool.and_eq_true, Bool.or_eq_true, beq_iff_eq] at h
      exact List.Forall₂.cons h.1 (ih t h.2)

theorem forall2_get? (s s2 : List Nat) (h : List.Forall₂ relCV s s2) :
    ∀ (i : Nat), (s.get? i = none ∧ s2.get? i = none) ∨
      (∃ a b, s.get? i = some a ∧ s2.get? i = some b ∧ relCV a b) := by
  induction h with
  | nil => intro i; exact Or.inl ⟨rfl, rfl⟩
  | cons hr ht ih =>
    intro i
    cases i with
    | zero => exact Or.inr ⟨_, _, rfl, rfl, hr⟩
    | succ i => exact ih i

theorem isWordO_get_eq (s s2 : List Nat) (h : List.Forall₂ relCV s s2) (i : Nat) :
    isWordO (s2.get? i) = isWordO (s.get? i) := by
  rcases forall2_get? s s2 h i with ⟨h1, h2⟩ | ⟨a, b, h1, h2, hr⟩
  · rw [h1, h2]
  · rw [h1, h2]
    rcases hr with hr | hr
    · rw [hr]
    · rw [hr]
      exact isWordC_flipCase a

theorem isWordO_prev_eq (s s2 : List Nat) (h : List.Forall₂ relCV s s2) (i : Nat) :
    isWordO (prevAt s2 i) = isWordO (prevAt s i) := by
  unfold prevAt
  split_ifs
  · rfl
  · exact isWordO_get_eq s s2 h (i - 1)

theorem boundaryAt_eq (s s2 : List Nat) (h : List.Forall₂ relCV s s2) (i : Nat) :
    boundaryAt s2 i = boundaryAt s i := by
  unfold boundaryAt
  rw [isWordO_get_eq s s2 h i, isWordO_prev_eq s s2 h i]

theorem mrun_variant (s s2 : List Nat) (hv : List.Forall₂ relCV s s2) :
    ∀ (fuel : Nat) (re : RE), CI re → ∀ (i : Nat) (k k2 : Nat → Option Nat),
      (∀ j, k j = k2 j) → mrun s fuel re i k = mrun s2 fuel re i k2 := by
  intro fuel
  induction fuel with
  | zero => intro re _ i k k2 _; rfl
  | succ fuel ih =>
    intro re hci i k k2 hk
    cases hci with
    | eps =>
      simp only [mrun]
      exact hk i
    | cls p hp =>
      simp only [mrun]
      rcases forall2_get? s s2 hv i with ⟨h1, h2⟩ | ⟨a, b, h1, h2, hr⟩
      · rw [h1, h2]
      · rw [h1, h2]
        dsimp only
        have hpb : p b = p a := by
          rcases hr with hr | hr
          · rw [hr]
          · rw [hr]
            exact hp a
        rw [hpb]
        cases hpa : p a <;> simp [hpa, hk (i + 1)]
    | cat hca hcb =>
      simp only [mrun]
      exact ih _ hca i _ _ (fun j => ih _ hcb j k k2 hk)
    | alt hca hcb =>
      simp only [mrun]
      rw [ih _ hca i k k2 hk, ih _ hcb i k k2 hk]
    | star hca =>
      simp only [mrun]
      rw [ih _ hca i _ _ (fun j => ih _ (CI.star hca) j k k2 hk), hk i]
    | wordB =>
      simp only [mrun]
      rw [boundaryAt_eq s s2 hv i]
      split_ifs
      · exact hk i
      · rfl
    | noWordBefore =>
      simp only [mrun]
      rw [isWordO_prev_eq s s2 hv i]
      split_ifs
      · rfl
      · exact hk i
    | noWordAfter =>
      simp only [mrun]
      rw [isWordO_get_eq s s2 hv i]
      split_ifs
      · rfl
      · exact hk i

theorem tryMatchAt_variant (re : RE) (hci : CI re) (s s2 : List Nat)
    (hv : List.Forall₂ relCV s s2) (i : Nat) :
    tryMatchAt re s i = tryMatchAt re s2 i := by
  unfold tryMatchAt bigFuel
  rw [hv.length_eq]
  exact mrun_variant s s2 hv _ re hci i _ _ (fun j => rfl)

theorem scanGas_variant (re : RE) (hci : CI re) (s s2 : List Nat)
    (hv : List.Forall₂ relCV s s2) :
    ∀ (gas i : Nat), scanGas re s gas i = scanGas re s2 gas i := by
  intro gas
  induction gas with
  | zero => intro i; rfl
  | succ gas ih =>
    intro i
    simp only [scanGas]
    rw [← hv.length_eq, ← tryMatchAt_variant re hci s s2 hv i]
    split_ifs
    · cases h : tryMatchAt re s i with
      | none =>
        dsimp only
        exact ih (i + 1)
      | some e =>
        dsimp only
        rw [ih (max e (i + 1))]
    · rfl

theorem finditer_variant (re : RE) (hci : CI re) (s s2 : List Nat)
    (hv : List.Forall₂ relCV s s2) : finditer re s = finditer re s2 := by
  unfold finditer
  rw [← hv.length_eq]
  exact scanGas_variant re hci s s2 hv (s.length + 1) 0

/-- C5 counterexample: the registry entry `law_review` — a registered
type other than `case_short` — distinguishes case, refuting the claim as
stated: `"110 Harv. L. Rev. 1134"` and its ASCII case variant
`"110 harv. l. rev. 1134"` scan to different match lists under
`LAW_REVIEW_PATTERN` (which the source compiles WITHOUT
`re.IGNORECASE`). -/
theorem c5_counterexample_law_review_distinguishes_case :
    ((("law_review"), LAW_REVIEW_PATTERN) ∈ PATTERN_SPECS) ∧
    (("law_review") : String) ≠ ("case_short") ∧
    variantB (encode ("110 Harv. L. Rev. 1134")) (encode ("110 harv. l. rev. 1134")) = true ∧
    finditer LAW_REVIEW_PATTERN (encode ("110 Harv. L. Rev. 1134")) = [(0, 22)] ∧
    finditer LAW_REVIEW_PATTERN (encode ("110 harv. l. rev. 1134")) = [] := by
  refine ⟨?_, by decide, by decide, by decide, by decide⟩
  unfold PATTERN_SPECS
  exact List.Mem.tail _ (List.Mem.tail _ (List.Mem.tail _ (List.Mem.tail _ (List.Mem.tail _
    (List.Mem.tail _ (List.Mem.head _))))))

/-- C5 (amended): every recognizer of the registry is case-insensitive —
scanning any ASCII case variant of a buffer yields matches at identical
positions — EXCEPT the short-form recognizer (`case_short`) AND the
law-review recognizer (`law_review`), both of which are compiled without
`re.IGNORECASE` and distinguish case (witnessed here for `case_short`
and in the counterexample for `law_review`). -/
theorem c5_case_insensitivity_amended :
    (∀ (ty : String) (p : RE), (ty, p) ∈ PATTERN_SPECS →
      ty ≠ ("case_short") → ty ≠ ("law_review") →
      ∀ (s s2 : List Nat), variantB s s2 = true → finditer p s = finditer p s2) ∧
    (variantB (encode ("Smith, 123 F. Supp. at 458")) (encode ("smith, 123 f. supp. at 458")) =
      true ∧
     finditer SHORT_FORM_PATTERN (encode ("Smith, 123 F. Supp. at 458")) = [(0, 26)] ∧
     finditer SHORT_FORM_PATTERN (encode ("smith, 123 f. supp. at 458")) = []) := by
  constructor
  · intro ty p hmem h1 h2 s s2 hvb
    have hv := variantB_forall2 s s2 hvb
    fin_cases hmem
    · exact finditer_variant _ ci_CASE s s2 hv
    · exact absurd rfl h1
    · exact finditer_variant _ ci_STATUTE s s2 hv
    · exact finditer_variant _ ci_STATE_STATUTE s s2 hv
    · exact finditer_variant _ ci_REGULATION s s2 hv
    · exact finditer_variant _ ci_STATE_REG s s2 hv
    · exact absurd rfl h2
    · exact finditer_variant _ ci_AGENCY s s2 hv
    · exact finditer_variant _ ci_FOREIGN s s2 hv
    · exact finditer_variant _ ci_CONSTITUTIONAL s s2 hv
  · exact ⟨by decide, by decide, by decide⟩

/-- C5 witness: the amended case-insensitivity theorem applied to the
`statute` recognizer at a concrete case-variant pair. -/
theorem c5_case_insensitivity_amended_witness :
    finditer STATUTE_CITATION_PATTERN (encode ("42 U.S.C. § 1983")) =
      finditer STATUTE_CITATION_PATTERN (encode ("42 u.s.c. § 1983")) :=
  c5_case_insensitivity_amended.1 ("statute") STATUTE_CITATION_PATTERN
    (List.Mem.tail _ (List.Mem.tail _ (List.Mem.head _)))
    (by decide) (by decide) _ _ (by decide)

/-! ### The pseudo-validation status (C3) -/

theorem leBytes_length : ∀ (k n : Nat), (leBytes k n).length = k := by
  intro k
  induction k with
  | zero => intro n; rfl
  | succ k ih =>
    intro n
    simp only [leBytes, List.length_cons, ih]

theorem md5Digest_length (msg : List Nat) : (md5Digest msg).length = 16 := by
  unfold md5Digest
  dsimp only
  simp [leBytes_length]

theorem foldl_hex_mod16 :
    ∀ (l : List Nat) (acc d : Nat), l.getLast? = some d →
      (l.foldl (fun a b => 256 * a + b) acc) % 16 = d % 16 := by
  intro l
  induction l with
  | nil => intro acc d h; simp at h
  | cons b rest ih =>
    intro acc d h
    cases rest with
    | nil =>
      simp only [List.getLast?_singleton, Option.some.injEq] at h
      subst h
      simp only [List.foldl_cons, List.foldl_nil]
      omega
    | cons c rest2 =>
      rw [List.getLast?_cons_cons] at h
      simp only [List.foldl_cons] at ih ⊢
      exact ih _ d h

theorem md5HexValue_mod16 (msg : List Nat) : md5HexValue msg % 16 = md5LastHexDigit msg := by
  unfold md5HexValue md5LastHexDigit
  cases hL : (md5Digest msg).getLast? with
  | none =>
    rw [List.getLast?_eq_none_iff] at hL
    have := md5Digest_length msg
    rw [hL] at this
    simp at this
  | some d =>
    rw [foldl_hex_mod16 _ 0 d hL, List.getLastD_eq_getLast?, hL]
    rfl

/-- C3 counterexample: on the text `"b"`, the code's status (last hex
digit of the md5 digest, mod 3) is `valid`, but the claim's prescription
(the md5 hash value reduced modulo 3) gives `review`: md5("b") ends in
the hex digit f (15, ≡ 0 mod 3) while the whole digest value is ≡ 1
mod 3. -/
theorem c3_counterexample_status_not_hash_mod3 :
    mock_validation_status (encode ("b")) = ("valid") ∧
    statusByHashMod3 (encode ("b")) = ("review") ∧
    mock_validation_status (encode ("b")) ≠ statusByHashMod3 (encode ("b")) := by
  refine ⟨by decide, by decide, by decide⟩

/-- C3 (amended): the pseudo-validation status is a pure deterministic
function of the citation text alone — in this embedding it IS a function
of the text, so two calls on the same string agree definitionally — and
it is computed by MD5-hashing the text's UTF-8 byte encoding and
reducing the hash modulo 16 (its last hexadecimal digit) and then modulo
3, with bucket 0 mapped to valid, bucket 1 to review, and any other
bucket to invalid. -/
theorem c3_status_pure_hash_bucket (text : List Nat) :
    mock_validation_status text =
      (let bucket := md5HexValue (utf8Encode text) % 16 % 3;
       if bucket = 0 then ("valid") else if bucket = 1 then ("review") else ("invalid")) := by
  unfold mock_validation_status
  rw [← md5HexValue_mod16]

/-! ### Error handling of the upload endpoints (C6) -/

/-- C6: for any container parser (the embedding quantifies over the
external docx library), a zero-length payload fails with the
empty-input error — for EVERY parser, i.e. without the parse being
consulted — an unparseable payload fails with the document-parse error,
and on the success path the full result record (complete citation list,
its exact length as the count, the preview of the whole normalized text)
is returned: no partial result exists in any case. -/
theorem c6_empty_and_parse_errors_totality {α : Type} (docxParse : List Nat → Option α)
    (chunksOf : α → List (List Nat)) (filename : String) (payload : List Nat) :
    (endsWithDocx filename = true → payload = [] →
      upload_docx docxParse chunksOf filename payload = .error .emptyInput ∧
      debug_docx docxParse chunksOf filename payload = .error .emptyInput) ∧
    (endsWithDocx filename = true → payload ≠ [] → docxParse payload = none →
      upload_docx docxParse chunksOf filename payload = .error .documentParse ∧
      debug_docx docxParse chunksOf filename payload = .error .documentParse) ∧
    (∀ (r : UploadResult), upload_docx docxParse chunksOf filename payload = .ok r →
      ∃ d, docxParse payload = some d ∧
        r = { filename := filename,
              citation_count := (extractCitations (normalize_extracted_text
                (List.intercalate [10] (chunksOf d)))).length,
              citations := extractCitations (normalize_extracted_text
                (List.intercalate [10] (chunksOf d))),
              extracted_text_preview :=
                if (normalize_extracted_text (List.intercalate [10] (chunksOf d))).length > 2000
                then (normalize_extracted_text (List.intercalate [10] (chunksOf d))).take 2000 ++
                  encode ("...")
                else normalize_extracted_text (List.intercalate [10] (chunksOf d)) }) := by
  refine ⟨fun hf hp => ?_, fun hf hp hparse => ?_, fun r h => ?_⟩
  · subst hp
    constructor <;> simp [upload_docx, debug_docx, read_docx_upload, hf]
  · constructor <;>
      simp [upload_docx, debug_docx, read_docx_upload, extract_docx_text, hf, hp, hparse]
  · unfold upload_docx read_docx_upload extract_docx_text at h
    by_cases hf : endsWithDocx filename
    · rw [if_neg (by simp [hf])] at h
      by_cases hp : payload = []
      · rw [if_pos hp] at h
        simp at h
      · rw [if_neg hp] at h
        cases hd : docxParse payload with
        | none =>
          rw [hd] at h
          simp at h
        | some d =>
          rw [hd] at h
          refine ⟨d, rfl, ?_⟩
          dsimp only at h
          injection h with h2
          rw [← h2]
    · rw [if_pos (by simp [hf])] at h
      simp at h

/-- C6 witness: the theorem applied at a concrete parser (`Unit`
documents, always failing to parse), filename, and payloads. -/
theorem c6_empty_and_parse_errors_witness :
    (upload_docx (fun _ : List Nat => (none : Option Unit)) (fun _ => []) ("brief.docx") [] =
      .error .emptyInput) ∧
    (upload_docx (fun _ : List Nat => (none : Option Unit)) (fun _ => []) ("brief.docx") [1] =
      .error .documentParse) :=
  ⟨((c6_empty_and_parse_errors_totality (fun _ => none) (fun _ => []) ("brief.docx") []).1
      (by decide) rfl).1,
   ((c6_empty_and_parse_errors_totality (fun _ => none) (fun _ => []) ("brief.docx") [1]).2.1
      (by decide) (by decide) rfl).1⟩

end CScout
